import Mathlib

/-!
Verification of the outreach-automation core of this repository against its
specification.  Each service is shallowly embedded: Python dictionaries become
association lists (insertion-ordered, like Python dicts), `datetime.now()`
becomes an explicit integer timestamp parameter (seconds), float multipliers
become exact rationals, and every random draw (`random.choice`,
`random.randint`) becomes an explicit choice parameter.  Mutation of in-memory
registries becomes explicit state passing: a method that mutates the service
returns the updated state together with its result.
-/

namespace Util

/-- The character `{` (written via its code point to keep brace characters out
of the code text). -/
def lbrace : Char := Char.ofNat 123

/-- The character `}`. -/
def rbrace : Char := Char.ofNat 125

/-- A spintax brace character. -/
def isBrace (c : Char) : Bool := c = lbrace || c = rbrace

/-- One step bound for `pyReplace`:  Python `str.replace(pat, val)` replaces
every non-overlapping occurrence of `pat`, scanning left to right and
continuing after each replacement (the replacement text is not rescanned).
Structural recursion on the fuel; `fuel = cs.length` always suffices because
each step consumes at least one character of `cs`. -/
def pyReplaceAux (pat val : List Char) : Nat → List Char → List Char
  | _, [] => []
  | 0, cs => cs
  | fuel + 1, c :: cs =>
    if !pat.isEmpty && pat.isPrefixOf (c :: cs) then
      val ++ pyReplaceAux pat val fuel ((c :: cs).drop pat.length)
    else
      c :: pyReplaceAux pat val fuel cs

/-- Python `text.replace(pat, val)` (for nonempty `pat`, the only use here). -/
def pyReplace (pat val cs : List Char) : List Char :=
  pyReplaceAux pat val cs.length cs

/-- Python `str.strip()`: remove leading and trailing whitespace. -/
def pyStrip (cs : List Char) : List Char :=
  ((cs.dropWhile Char.isWhitespace).reverse.dropWhile Char.isWhitespace).reverse

/-- Python dict update `d[k] = v` on an insertion-ordered association list:
an existing key keeps its position, a new key is appended at the end. -/
def updateAssoc {α : Type} (l : List (String × α)) (k : String) (v : α) :
    List (String × α) :=
  if l.any (fun e => e.1 = k) then
    l.map (fun e => if e.1 = k then (k, v) else e)
  else
    l ++ [(k, v)]

/-- Python dict `pop(k)` / key removal. -/
def removeAssoc {α : Type} (l : List (String × α)) (k : String) :
    List (String × α) :=
  l.filter (fun e => e.1 ≠ k)

end Util

namespace Spintax

open Util

/-!
Embedding of `api/services/leads/spintax_service.py` (`SpintaxService`).
Text is `List Char`; the spintax regex `\x7b([^\x7b\x7d]+)\x7d` is embedded
directly as a scanning function.  `random.choice(options)` is modelled by an
external choice stream `choices : Nat → Nat`, the `i`-th draw picking element
`choices i % options.length`; quantifying over `choices` quantifies over every
possible sequence of random branch choices.
-/

/-- Attempt to match the spintax regex at the start of `cs`.  The regex
matches an opening brace, a nonempty run of non-brace characters, then a
closing brace (greedy `[^...]+` followed by a mandatory brace admits no other
match).  Returns `(inner, rest-after-closing-brace)`. -/
def matchAt (cs : List Char) : Option (List Char × List Char) :=
  match cs with
  | c :: rest =>
    if c = lbrace then
      let inner := rest.takeWhile (fun d => !isBrace d)
      match rest.dropWhile (fun d => !isBrace d) with
      | d :: tail =>
        if d = rbrace && !inner.isEmpty then some (inner, tail) else none
      | [] => none
    else none
  | [] => none

/-- `re.search` for the spintax pattern: the leftmost match, returned as
`(text before the match, inner alternatives text, text after the match)`. -/
def findSpin : List Char → Option (List Char × List Char × List Char)
  | [] => none
  | c :: cs =>
    match matchAt (c :: cs) with
    | some (inner, rest) => some ([], inner, rest)
    | none =>
      match findSpin cs with
      | some (p, i, s) => some (c :: p, i, s)
      | none => none

/-- Python `"…".split("|")`: split on every pipe, keeping empty pieces; the
result is always nonempty. -/
def splitBar : List Char → List (List Char)
  | [] => [[]]
  | c :: cs =>
    if c = '|' then [] :: splitBar cs
    else
      match splitBar cs with
      | [] => [[c]]
      | p :: ps => (c :: p) :: ps

/-- One iteration of the `spin` loop: find the leftmost spintax match, split
its inner text on pipes and splice in the chosen option (`none` when the
pattern no longer occurs, which breaks the loop). -/
def spinStep (k : Nat) (cs : List Char) : Option (List Char) :=
  match findSpin cs with
  | none => none
  | some (p, inner, s) =>
    let options := splitBar inner
    some (p ++ options.getD (k % options.length) [] ++ s)

/-- The `spin` loop with explicit fuel and draw index (the source caps the
loop at `max_iterations = 10`). -/
def spinAux (choices : Nat → Nat) : Nat → Nat → List Char → List Char
  | 0, _, cs => cs
  | fuel + 1, i, cs =>
    match spinStep (choices i) cs with
    | none => cs
    | some cs' => spinAux choices fuel (i + 1) cs'

/-- `SpintaxService.spin`: resolve spintax patterns one innermost-leftmost
match at a time, at most 10 iterations. -/
def spin (choices : Nat → Nat) (cs : List Char) : List Char :=
  spinAux choices 10 0 cs

/-- `SpintaxService.replace_variables`: for each `(name, value)` pair in
insertion order, replace every occurrence of `[name]` by `value`. -/
def replace_variables (text : List Char) (vars : List (String × String)) :
    List Char :=
  vars.foldl
    (fun acc nv => pyReplace ('[' :: (nv.1.data ++ [']'])) nv.2.data acc) text

/-- `MessageTemplate` (fields used by message generation; usage counters are
kept, timestamps and display-only fields are elided). -/
structure MessageTemplate where
  id : String
  template : List Char
  success_count : Nat := 0
  total_used : Nat := 0
deriving DecidableEq

/-- The template registry `SpintaxService._templates`. -/
def TemplateStore := List (String × MessageTemplate)

/-- `SpintaxService.generate_message`: look the template up, replace the
variables first, then spin the result, and bump the usage counter.  Returns
the generated content (`None` when the template id is unknown) and the
updated template store. -/
def generate_message (store : List (String × MessageTemplate))
    (choices : Nat → Nat) (template_id : String)
    (vars : List (String × String)) :
    Option (List Char) × List (String × MessageTemplate) :=
  match store.lookup template_id with
  | none => (none, store)
  | some t =>
    let content := replace_variables t.template vars
    let content := spin choices content
    (some content,
      updateAssoc store template_id { t with total_used := t.total_used + 1 })

/-- The inner texts of all the non-overlapping spintax matches of a template,
scanning left to right (the matches `re.finditer` iterates over in
`validate_template`).  Each match consumes at least three characters, so
`cs.length` fuel suffices. -/
def spintaxMatchesAux : Nat → List Char → List (List Char)
  | 0, _ => []
  | fuel + 1, cs =>
    match findSpin cs with
    | none => []
    | some (_, inner, suffix) => inner :: spintaxMatchesAux fuel suffix

/-- All spintax matches of a template. -/
def spintaxMatches (cs : List Char) : List (List Char) :=
  spintaxMatchesAux cs.length cs

/-- `SpintaxService.validate_template`, reduced to its `valid` verdict
(`valid` is true exactly when the issues list is empty): the count of opening
braces equals the count of closing braces, and no alternative of any spintax
match is empty after stripping. -/
def validate_valid (cs : List Char) : Bool :=
  (cs.count lbrace == cs.count rbrace) &&
    (spintaxMatches cs).all
      (fun inner => (splitBar inner).all (fun opt => !(pyStrip opt).isEmpty))

/-- Depth scan of the brace structure: `scanDepth d cs` follows the nesting
depth starting from `d`, returning `none` as soon as a closing brace appears
at depth zero.  (A specification-side notion used to state the corrected
version of the brace-elimination property; not part of the source.) -/
def scanDepth : Nat → List Char → Option Nat
  | d, [] => some d
  | d, c :: cs =>
    if c = lbrace then scanDepth (d + 1) cs
    else if c = rbrace then
      match d with
      | 0 => none
      | d' + 1 => scanDepth d' cs
    else scanDepth d cs

/-- Properly matched braces: every closing brace matches an earlier opening
brace and every opening brace is eventually closed. -/
def dyck (cs : List Char) : Bool := scanDepth 0 cs == some 0

/-- An adjacent pair of characters that makes some alternative of some
(possibly nested) spintax group empty: a pipe or closing brace directly after
an opening brace or another pipe. -/
def badPair (a b : Char) : Bool :=
  (a = lbrace || a = '|') && (b = '|' || b = rbrace)

/-- No empty alternative anywhere in the template, as a condition on adjacent
characters: no adjacent pair is bad. -/
def goodPairs : List Char → Bool
  | [] => true
  | [_] => true
  | a :: b :: t => !badPair a b && goodPairs (b :: t)

end Spintax

namespace Scheduler

open Util

/-!
Embedding of `api/services/leads/smart_scheduler_service.py`
(`SmartSchedulerService`).  Timestamps are integers (seconds); `datetime.now()`
becomes an explicit `now` parameter.  The float age multipliers `0.3` and
`0.6` are modelled as the exact rationals 3/10 and 6/10 via `base * n / 10`
with flooring division, which agrees with Python's `int(base * 0.3)` /
`int(base * 0.6)` at every limit value appearing in `DEFAULT_LIMITS`.
Per-action-type dicts with a `get(…, default)` read are modelled as total
functions.
-/

/-- `ActionType`. -/
inductive ActionType where
  | follow | unfollow | dm | like | comment | view_profile | scroll
deriving DecidableEq, Repr

/-- `AccountAgeCategory`. -/
inductive AccountAgeCategory where
  | new | warming | mature
deriving DecidableEq, Repr

/-- `RateLimitConfig`; the two multipliers are stored as tenths. -/
structure RateLimitConfig where
  action_type : ActionType
  hourly_limit : Nat
  daily_limit : Nat
  min_interval_seconds : Nat
  max_interval_seconds : Nat
  new_account_multiplier_tenths : Nat := 3
  warming_account_multiplier_tenths : Nat := 6

/-- `RateLimitConfig.get_limit_for_age`. -/
def RateLimitConfig.get_limit_for_age (c : RateLimitConfig)
    (age_category : AccountAgeCategory) (period : String) : Nat :=
  let base := if period = "daily" then c.daily_limit else c.hourly_limit
  match age_category with
  | .new => base * c.new_account_multiplier_tenths / 10
  | .warming => base * c.warming_account_multiplier_tenths / 10
  | .mature => base

/-- `AccountScheduleState`. -/
structure AccountScheduleState where
  account_id : String
  age_category : AccountAgeCategory
  timezone : String := "UTC"
  hourly_actions : ActionType → Nat
  daily_actions : ActionType → Nat
  last_action_at : ActionType → Option Int
  hourly_reset_at : Int
  daily_reset_at : Int
  is_cooling : Bool := false
  cooling_until : Option Int := none
  cooling_reason : Option String := none

/-- The mutable state of `SmartSchedulerService` (the action queue is not
modelled; no claim touches it). -/
structure SchedulerState where
  account_states : List (String × AccountScheduleState)
  rate_limits : List (String × List (ActionType × RateLimitConfig))

/-- `SmartSchedulerService.DEFAULT_LIMITS`. -/
def DEFAULT_LIMITS : List (String × List (ActionType × RateLimitConfig)) :=
  [("instagram",
    [(.follow, { action_type := .follow, hourly_limit := 20, daily_limit := 100,
                 min_interval_seconds := 60, max_interval_seconds := 300 }),
     (.unfollow, { action_type := .unfollow, hourly_limit := 30, daily_limit := 150,
                   min_interval_seconds := 30, max_interval_seconds := 120 }),
     (.dm, { action_type := .dm, hourly_limit := 10, daily_limit := 50,
             min_interval_seconds := 120, max_interval_seconds := 600 }),
     (.like, { action_type := .like, hourly_limit := 50, daily_limit := 300,
               min_interval_seconds := 10, max_interval_seconds := 60 })]),
   ("x",
    [(.follow, { action_type := .follow, hourly_limit := 30, daily_limit := 200,
                 min_interval_seconds := 30, max_interval_seconds := 180 }),
     (.dm, { action_type := .dm, hourly_limit := 20, daily_limit := 100,
             min_interval_seconds := 60, max_interval_seconds := 300 }),
     (.like, { action_type := .like, hourly_limit := 100, daily_limit := 500,
               min_interval_seconds := 5, max_interval_seconds := 30 })])]

/-- The freshly constructed service (`SmartSchedulerService.__init__`). -/
def initScheduler : SchedulerState :=
  { account_states := [], rate_limits := DEFAULT_LIMITS }

/-- `now.replace(minute=0, second=0, microsecond=0)` on an epoch timestamp. -/
def floorToHour (t : Int) : Int := t - t.emod 3600

/-- `now.replace(hour=0, minute=0, second=0, microsecond=0)`. -/
def floorToDay (t : Int) : Int := t - t.emod 86400

/-- `SmartSchedulerService._calculate_age_category`: `(now - created).days`
floors toward minus infinity, as `timedelta.days` does. -/
def calculate_age_category (created_at : Option Int) (now : Int) :
    AccountAgeCategory :=
  match created_at with
  | none => .mature
  | some c =>
    let age_days := Int.ediv (now - c) 86400
    if age_days < 7 then .new
    else if age_days < 30 then .warming
    else .mature

/-- `SmartSchedulerService.register_account`. -/
def register_account (sch : SchedulerState) (account_id : String)
    (created_at : Option Int) (timezone : String) (now : Int) :
    AccountScheduleState × SchedulerState :=
  let state : AccountScheduleState :=
    { account_id := account_id
      age_category := calculate_age_category created_at now
      timezone := timezone
      hourly_actions := fun _ => 0
      daily_actions := fun _ => 0
      last_action_at := fun _ => none
      hourly_reset_at := now
      daily_reset_at := now }
  (state, { sch with account_states := updateAssoc sch.account_states account_id state })

/-- Write an account state back into the registry (in Python this is implicit:
`AccountScheduleState` objects are mutated in place inside the dict). -/
def saveState (sch : SchedulerState) (account_id : String)
    (st : AccountScheduleState) : SchedulerState :=
  { sch with account_states := updateAssoc sch.account_states account_id st }

/-- `SmartSchedulerService._reset_counters_if_needed`. -/
def reset_counters_if_needed (st : AccountScheduleState) (now : Int) :
    AccountScheduleState :=
  let st :=
    if now ≥ st.hourly_reset_at + 3600 then
      { st with hourly_actions := fun _ => 0, hourly_reset_at := floorToHour now }
    else st
  if now ≥ st.daily_reset_at + 86400 then
    { st with daily_actions := fun _ => 0, daily_reset_at := floorToDay now }
  else st

/-- The platform's rate-limit table: `self._rate_limits.get(platform, {})`
followed by `.get(action_type)`. -/
def lookupConfig (sch : SchedulerState) (platform : String)
    (action_type : ActionType) : Option RateLimitConfig :=
  ((sch.rate_limits.lookup platform).getD []).lookup action_type

/-- The part of `can_execute_action` after the cooling check: config lookup,
lazy counter reset, hourly limit, daily limit, minimum interval.  Counter
resets are persisted (in Python the state object is mutated in place). -/
def can_execute_rest (sch : SchedulerState) (account_id : String)
    (st : AccountScheduleState) (action_type : ActionType) (platform : String)
    (now : Int) : (Bool × Option String) × SchedulerState :=
  match lookupConfig sch platform action_type with
  | none => ((true, none), saveState sch account_id st)
  | some config =>
    let st := reset_counters_if_needed st now
    let sch := saveState sch account_id st
    let hourly_count := st.hourly_actions action_type
    let hourly_limit := config.get_limit_for_age st.age_category "hourly"
    if hourly_count ≥ hourly_limit then
      ((false, some ("Hourly limit reached (" ++ toString hourly_count ++ "/" ++
        toString hourly_limit ++ ")")), sch)
    else
      let daily_count := st.daily_actions action_type
      let daily_limit := config.get_limit_for_age st.age_category "daily"
      if daily_count ≥ daily_limit then
        ((false, some ("Daily limit reached (" ++ toString daily_count ++ "/" ++
          toString daily_limit ++ ")")), sch)
      else
        match st.last_action_at action_type with
        | some last =>
          let elapsed := now - last
          if elapsed < (config.min_interval_seconds : Int) then
            ((false, some ("Min interval not met (" ++ toString elapsed ++ "s < " ++
              toString config.min_interval_seconds ++ "s)")), sch)
          else ((true, none), sch)
        | none => ((true, none), sch)

/-- `SmartSchedulerService.can_execute_action`.  Returns the
`(allowed, reason)` pair and the updated service state (cooling expiry and
counter resets mutate the account state even when the overall answer is
negative). -/
def can_execute_action (sch : SchedulerState) (account_id : String)
    (action_type : ActionType) (platform : String) (now : Int) :
    (Bool × Option String) × SchedulerState :=
  match sch.account_states.lookup account_id with
  | none => ((false, some "Account not registered"), sch)
  | some st =>
    if st.is_cooling then
      match st.cooling_until with
      | some cu =>
        if cu > now then
          ((false, some ("Account cooling until " ++ toString cu)), sch)
        else
          let st := { st with is_cooling := false, cooling_until := none }
          can_execute_rest (saveState sch account_id st) account_id st
            action_type platform now
      | none =>
        let st := { st with is_cooling := false, cooling_until := none }
        can_execute_rest (saveState sch account_id st) account_id st
          action_type platform now
    else
      can_execute_rest sch account_id st action_type platform now

/-- `SmartSchedulerService.record_action`: unregistered accounts are ignored;
`last_action_at` is always stamped; counters increment only on success. -/
def record_action (sch : SchedulerState) (account_id : String)
    (action_type : ActionType) (success : Bool) (now : Int) : SchedulerState :=
  match sch.account_states.lookup account_id with
  | none => sch
  | some st =>
    let la := st.last_action_at
    let st := { st with
      last_action_at := fun x => if x = action_type then some now else la x }
    let st :=
      if success then
        let ha := st.hourly_actions
        let da := st.daily_actions
        { st with
          hourly_actions := fun x => if x = action_type then ha action_type + 1 else ha x
          daily_actions := fun x => if x = action_type then da action_type + 1 else da x }
      else st
    saveState sch account_id st

/-- `SmartSchedulerService.set_account_cooling` (duration in minutes). -/
def set_account_cooling (sch : SchedulerState) (account_id : String)
    (duration_minutes : Int) (reason : Option String) (now : Int) :
    SchedulerState :=
  match sch.account_states.lookup account_id with
  | none => sch
  | some st =>
    saveState sch account_id
      { st with is_cooling := true
                cooling_until := some (now + duration_minutes * 60)
                cooling_reason := reason }

end Scheduler

namespace ProxyPool

open Util

/-!
Embedding of `api/services/leads/proxy_pool_service.py` (`ProxyPoolService`).
Float performance metrics are modelled as rationals; `None`-able strings as
`Option String` (with Python truthiness read as `isSome`; the empty-string
corner of truthiness is not exercised by any claim).  `random.choice` takes an
explicit index.  Exceptions become an `Except` result; note that the source's
fresh-assignment path calls `get_best_proxy(country=…, exclude_assigned=True)`
although `get_best_proxy` accepts no `exclude_assigned` parameter, which in
Python raises a `TypeError` — modelled as the distinct error
`PoolError.badKeywordArgument`.
-/

/-- `ProxyType`. -/
inductive ProxyType where
  | http | https | socks5
deriving DecidableEq, Repr

/-- `ProxyStatus`. -/
inductive ProxyStatus where
  | active | slow | failed | banned | cooling
deriving DecidableEq, Repr

/-- `ProxyQuality`. -/
inductive ProxyQuality where
  | residential | datacenter | mobile
deriving DecidableEq, Repr

/-- `ProxyConfig`. -/
structure ProxyConfig where
  id : String
  host : String
  port : Nat
  username : Option String := none
  password : Option String := none
  proxy_type : ProxyType := .http
  quality : ProxyQuality := .residential
  country : Option String := none
  city : Option String := none
  isp : Option String := none
  status : ProxyStatus := .active
  avg_response_time_ms : ℚ := 0
  success_rate : ℚ := 1
  total_requests : Nat := 0
  failed_requests : Nat := 0
  last_used_at : Option Int := none
  last_check_at : Option Int := none
  cooling_until : Option Int := none
  assigned_to_account_id : Option String := none
deriving DecidableEq

instance : Inhabited ProxyConfig :=
  ⟨{ id := "", host := "", port := 0 }⟩

/-- The errors `ProxyPoolService` can raise on the assignment paths. -/
inductive PoolError where
  | noAvailableProxy
  | badKeywordArgument
deriving DecidableEq, Repr

/-- The mutable state of `ProxyPoolService`: the proxy dict and the
account-to-proxy assignment dict. -/
structure PoolState where
  proxies : List (String × ProxyConfig)
  account_proxy_map : List (String × String)
deriving DecidableEq

/-- One proxy's treatment inside the `get_available_proxies` loop: `(included,
possibly reactivated proxy)`.  Banned proxies are skipped; cooling proxies are
skipped while the cooling window is open and otherwise reactivated to active
(the mutation persists even if a later filter then skips the proxy). -/
def availStep (now : Int) (country : Option String) (quality : Option ProxyQuality)
    (exclude_assigned : Bool) (p : ProxyConfig) : Bool × ProxyConfig :=
  if p.status = .banned then (false, p)
  else if p.status = .cooling &&
      (match p.cooling_until with | some cu => cu > now | none => false) then
    (false, p)
  else
    let p := if p.status = .cooling then { p with status := .active } else p
    if country.isSome && p.country ≠ country then (false, p)
    else if quality.isSome && some p.quality ≠ quality then (false, p)
    else if exclude_assigned && p.assigned_to_account_id.isSome then (false, p)
    else (true, p)

/-- `ProxyPoolService.get_available_proxies`: the filtered list in pool order,
together with the pool updated by the cooling-expiry reactivations. -/
def get_available_proxies (pool : PoolState) (country : Option String)
    (quality : Option ProxyQuality) (exclude_assigned : Bool) (now : Int) :
    List ProxyConfig × PoolState :=
  let r := pool.proxies.foldl
    (fun (acc : List ProxyConfig × List (String × ProxyConfig)) kv =>
      let step := availStep now country quality exclude_assigned kv.2
      (if step.1 then acc.1 ++ [step.2] else acc.1, acc.2 ++ [(kv.1, step.2)]))
    ([], [])
  (r.1, { pool with proxies := r.2 })

/-- Sort comparator for `get_best_proxy`: Python sorts ascending by the key
`(-success_rate, avg_response_time_ms)`. -/
def bestLe (p q : ProxyConfig) : Bool :=
  (-p.success_rate < -q.success_rate) ||
    (-p.success_rate = -q.success_rate &&
      p.avg_response_time_ms ≤ q.avg_response_time_ms)

/-- Insert into a sorted list (used to model `list.sort`). -/
def insertLe (le : ProxyConfig → ProxyConfig → Bool) (x : ProxyConfig) :
    List ProxyConfig → List ProxyConfig
  | [] => [x]
  | y :: ys => if le x y then x :: y :: ys else y :: insertLe le x ys

/-- Insertion sort (the claims below only use that sorting permutes, so the
exact tie-breaking of CPython's sort is immaterial). -/
def sortProxies (le : ProxyConfig → ProxyConfig → Bool) :
    List ProxyConfig → List ProxyConfig
  | [] => []
  | x :: xs => insertLe le x (sortProxies le xs)

/-- `ProxyPoolService.get_best_proxy`: filter, raise on empty, sort by
success rate descending then latency ascending, return the head. -/
def get_best_proxy (pool : PoolState) (country : Option String)
    (quality : Option ProxyQuality) (now : Int) :
    Except PoolError (ProxyConfig × PoolState) :=
  let r := get_available_proxies pool country quality false now
  if r.1.isEmpty then .error .noAvailableProxy
  else .ok ((sortProxies bestLe r.1).headD default, r.2)

/-- `ProxyPoolService.get_random_proxy` with the random draw as index `k`. -/
def get_random_proxy (pool : PoolState) (country : Option String)
    (quality : Option ProxyQuality) (k : Nat) (now : Int) :
    Except PoolError (ProxyConfig × PoolState) :=
  let r := get_available_proxies pool country quality false now
  if r.1.isEmpty then .error .noAvailableProxy
  else .ok (r.1.getD (k % r.1.length) default, r.2)

/-- The tail of `assign_proxy_to_account` once a proxy object is chosen:
stamp the proxy with the account and record the assignment. -/
def finishAssign (pool : PoolState) (account_id : String) (p : ProxyConfig) :
    ProxyConfig × PoolState :=
  let p := { p with assigned_to_account_id := some account_id }
  (p, { proxies := updateAssoc pool.proxies p.id p
        account_proxy_map := updateAssoc pool.account_proxy_map account_id p.id })

/-- `ProxyPoolService.assign_proxy_to_account` (sticky assignment).  The
sticky path returns the stored proxy object unconditionally — its status is
never examined.  The explicit-`proxy_id` path likewise takes the proxy as is.
The fresh path faithfully reproduces the source's
`get_best_proxy(country=…, exclude_assigned=True)` call, which raises
`TypeError` because `get_best_proxy` has no such parameter. -/
def assign_proxy_to_account (pool : PoolState) (account_id : String)
    (proxy_id : Option String) (country : Option String) :
    Except PoolError (ProxyConfig × PoolState) :=
  let fresh : Except PoolError (ProxyConfig × PoolState) :=
    match proxy_id with
    | some pid =>
      match pool.proxies.lookup pid with
      | some p => .ok (finishAssign pool account_id p)
      | none => .error .badKeywordArgument
    | none => .error .badKeywordArgument
  match pool.account_proxy_map.lookup account_id with
  | some existing_pid =>
    match pool.proxies.lookup existing_pid with
    | some p => .ok (p, pool)
    | none => fresh
  | none => fresh

/-- `ProxyPoolService.release_account_proxy`. -/
def release_account_proxy (pool : PoolState) (account_id : String) :
    Bool × PoolState :=
  match pool.account_proxy_map.lookup account_id with
  | none => (false, pool)
  | some pid =>
    let m := removeAssoc pool.account_proxy_map account_id
    let proxies :=
      match pool.proxies.lookup pid with
      | some p => updateAssoc pool.proxies pid { p with assigned_to_account_id := none }
      | none => pool.proxies
    (true, { proxies := proxies, account_proxy_map := m })

/-- `ProxyPoolService.mark_proxy_banned`. -/
def mark_proxy_banned (pool : PoolState) (proxy_id : String) :
    Bool × PoolState :=
  match pool.proxies.lookup proxy_id with
  | none => (false, pool)
  | some p =>
    (true, { pool with proxies := updateAssoc pool.proxies proxy_id { p with status := .banned } })

end ProxyPool

namespace FollowBack

open Util

/-!
Embedding of `api/services/leads/follow_back_detector_service.py`
(`FollowBackDetectorService`).  The follower-status probe
(`_check_follower_status`) is the collaborator boundary: the source ships a
stub that always returns `False`, so `check_follow_back` takes the probe's
verdict as the explicit parameter `is_following_back`.  The free-form
`metadata` dict is only ever used with the keys `dm_sent` / `dm_sent_at`
(written by `mark_dm_sent`, read by `get_dm_ready_targets`), so it is
modelled as a record of those two fields.
-/

/-- `FollowStatus`. -/
inductive FollowStatus where
  | not_following | following | mutual | pending | blocked
deriving DecidableEq, Repr

/-- The `metadata` dict of a relationship (`dm_sent` defaults to falsy). -/
structure Metadata where
  dm_sent : Bool := false
  dm_sent_at : Option String := none
deriving DecidableEq, Repr

/-- `FollowRelationship`. -/
structure FollowRelationship where
  id : String
  sub_account_id : String
  target_user_id : String
  target_username : String
  status : FollowStatus := .not_following
  followed_at : Option Int := none
  follow_back_at : Option Int := none
  unfollow_at : Option Int := none
  timeout_at : Option Int := none
  check_count : Nat := 0
  last_checked_at : Option Int := none
  is_private_account : Bool := false
  metadata : Metadata := {}
deriving DecidableEq, Repr

/-- `DetectionResult`. -/
structure DetectionResult where
  relationship_id : String
  previous_status : FollowStatus
  current_status : FollowStatus
  changed : Bool := false
  checked_at : Int
  should_unfollow : Bool := false
  should_dm : Bool := false
  error_message : Option String := none
deriving DecidableEq, Repr

/-- The mutable state of `FollowBackDetectorService`. -/
structure DetectorState where
  relationships : List (String × FollowRelationship)
  timeout_days : Nat := 7

/-- `FollowBackDetectorService.register_follow`: on an existing relationship
only `status`, `followed_at` and `timeout_at` are reassigned; otherwise a
fresh relationship is created. -/
def register_follow (s : DetectorState) (sub_account_id target_user_id
    target_username : String) (is_private : Bool) (now : Int) :
    FollowRelationship × DetectorState :=
  let relationship_id := sub_account_id ++ "_" ++ target_user_id
  match s.relationships.lookup relationship_id with
  | some rel =>
    let rel := { rel with
      status := if is_private then FollowStatus.pending else FollowStatus.following
      followed_at := some now
      timeout_at := some (now + (s.timeout_days : Int) * 86400) }
    (rel, { s with relationships := updateAssoc s.relationships relationship_id rel })
  | none =>
    let rel : FollowRelationship :=
      { id := relationship_id
        sub_account_id := sub_account_id
        target_user_id := target_user_id
        target_username := target_username
        status := if is_private then FollowStatus.pending else FollowStatus.following
        followed_at := some now
        timeout_at := some (now + (s.timeout_days : Int) * 86400)
        is_private_account := is_private }
    (rel, { s with relationships := updateAssoc s.relationships relationship_id rel })

/-- `FollowBackDetectorService.check_follow_back` on one relationship, with
the collaborator probe's verdict passed in.  Returns the detection result and
the (in Python: in-place) updated relationship. -/
def check_follow_back (rel : FollowRelationship) (is_following_back : Bool)
    (now : Int) : DetectionResult × FollowRelationship :=
  let result : DetectionResult :=
    { relationship_id := rel.id
      previous_status := rel.status
      current_status := rel.status
      checked_at := now }
  let rel := { rel with check_count := rel.check_count + 1,
                        last_checked_at := some now }
  if is_following_back then
    if rel.status ≠ .mutual then
      ({ result with current_status := .mutual, changed := true, should_dm := true },
       { rel with status := .mutual, follow_back_at := some now })
    else
      (result, rel)
  else
    match rel.timeout_at with
    | some ta => if now ≥ ta then ({ result with should_unfollow := true }, rel)
                 else (result, rel)
    | none => (result, rel)

/-- A sequence of `check_follow_back` calls on one relationship; each element
of `probes` is one call's `(probe verdict, timestamp)`. -/
def runChecks (rel : FollowRelationship) (probes : List (Bool × Int)) :
    List DetectionResult × FollowRelationship :=
  match probes with
  | [] => ([], rel)
  | (b, t) :: rest =>
    let step := check_follow_back rel b t
    let r := runChecks step.2 rest
    (step.1 :: r.1, r.2)

/-- `FollowBackDetectorService.get_mutual_followers`. -/
def get_mutual_followers (s : DetectorState) (sub_account_id : String) :
    List FollowRelationship :=
  (s.relationships.map (fun e => e.2)).filter
    (fun rel => rel.sub_account_id = sub_account_id && rel.status = .mutual)

/-- `FollowBackDetectorService.get_dm_ready_targets`: mutual followers whose
`dm_sent` metadata flag is not set. -/
def get_dm_ready_targets (s : DetectorState) (sub_account_id : String) :
    List FollowRelationship :=
  (get_mutual_followers s sub_account_id).filter (fun rel => !rel.metadata.dm_sent)

/-- `FollowBackDetectorService.mark_dm_sent` (`dm_sent_at` receives the
ISO-formatted timestamp). -/
def mark_dm_sent (s : DetectorState) (relationship_id : String)
    (now_iso : String) : Bool × DetectorState :=
  match s.relationships.lookup relationship_id with
  | none => (false, s)
  | some rel =>
    let rel := { rel with metadata := { dm_sent := true, dm_sent_at := some now_iso } }
    (true, { s with relationships := updateAssoc s.relationships relationship_id rel })

/-- The mask of first-true detection: true exactly at the first true probe,
false everywhere else (the shape claimed for `should_dm`). -/
def firstTrueMask : List Bool → List Bool
  | [] => []
  | b :: rest =>
    b :: (if b then List.replicate rest.length false else firstTrueMask rest)

end FollowBack

namespace ConvFlow

open Util

/-!
Embedding of `api/services/leads/conversation_flow_service.py`
(`ConversationFlowService`).  The intent regexes are each compiled by hand
into their semantics over the lowercased, stripped message: word-boundary
alternations `\\b(p1|p2|…)\\b` become `wordAlt`, plain alternations become
`substrAlt`, `^(hi|hello|hey)\\s*[!.?]*$` becomes `greetingExact`, `\\?$`
becomes `endsWithQ`, and `\\b(wh-words)\\b.*\\?` becomes a word occurrence
followed somewhere later by a question mark.  `re.IGNORECASE` is a no-op on
the already-lowercased text.  The `metadata` dict of an error response is
modelled by its only key, `error`.
-/

/-- An apostrophe, as a string. -/
def apos : String := (Char.ofNat 39).toString

/-- A regex word character (`\\w` over the ASCII text handled here). -/
def isWordChar (c : Char) : Bool := c.isAlphanum || c = '_'

/-- Match of a `\\b(phrase)\\b` occurrence at exactly the start of `hay`,
where `prev` is the character preceding `hay` in the full message (`none` at
the start of the message) and `cond` is an extra condition on what follows
the occurrence (`.*\\?` is `cond rest = rest.contains matching question
mark`).  All phrases begin and end with word characters, so the boundary
checks are: the previous character (if any) and the next character after the
phrase (if any) are not word characters. -/
def matchWordHere (phrase : List Char) (cond : List Char → Bool)
    (prev : Option Char) (hay : List Char) : Bool :=
  (match prev with | none => true | some c => !isWordChar c) &&
    phrase.isPrefixOf hay &&
    (match hay.drop phrase.length with
     | [] => true
     | c :: _ => !isWordChar c) &&
    cond (hay.drop phrase.length)

/-- Scan for a `\\b(phrase)\\b` occurrence anywhere in the message. -/
def wordOccursCondAux (phrase : List Char) (cond : List Char → Bool) :
    Option Char → List Char → Bool
  | prev, [] => matchWordHere phrase cond prev []
  | prev, c :: t =>
    matchWordHere phrase cond prev (c :: t) ||
      wordOccursCondAux phrase cond (some c) t

/-- `re.search(r"\\b(phrase)\\b" + tail, m)` with `cond` the semantics of
`tail`. -/
def wordOccursCond (phrase : String) (cond : List Char → Bool)
    (hay : List Char) : Bool :=
  wordOccursCondAux phrase.data cond none hay

/-- `re.search(r"\\b(phrase)\\b", m)`. -/
def wordOccurs (phrase : String) (hay : List Char) : Bool :=
  wordOccursCond phrase (fun _ => true) hay

/-- `re.search(r"\\b(p1|p2|…)\\b", m)`. -/
def wordAlt (phrases : List String) (hay : List Char) : Bool :=
  phrases.any (fun p => wordOccurs p hay)

/-- `re.search(r"p1|p2|…", m)` for literal alternatives. -/
def isSubstring : List Char → List Char → Bool
  | n, [] => n.isEmpty
  | n, c :: t => n.isPrefixOf (c :: t) || isSubstring n t

/-- Plain alternation of literal strings. -/
def substrAlt (phrases : List String) (hay : List Char) : Bool :=
  phrases.any (fun p => isSubstring p.data hay)

/-- `re.search(r"^(hi|hello|hey)\\s*[!.?]*$", m)`: one of the greeting words,
then whitespace, then only `!`, `.` or `?` until the end. -/
def greetingExact (hay : List Char) : Bool :=
  ["hi", "hello", "hey"].any (fun w =>
    w.data.isPrefixOf hay &&
      ((hay.drop w.length).dropWhile Char.isWhitespace).all
        (fun c => c = '!' || c = '.' || c = '?'))

/-- `re.search(r"\\?$", m)`. -/
def endsWithQ (hay : List Char) : Bool :=
  hay.getLast? = some '?'

/-- `ConversationIntent`. -/
inductive ConversationIntent where
  | greeting | interest | question | objection | positive | negative
  | request_human | spam | unknown
deriving DecidableEq, Repr

/-- The `StrEnum` value of an intent (the keys used in `next_nodes`). -/
def intentValue : ConversationIntent → String
  | .greeting => "greeting"
  | .interest => "interest"
  | .question => "question"
  | .objection => "objection"
  | .positive => "positive"
  | .negative => "negative"
  | .request_human => "request_human"
  | .spam => "spam"
  | .unknown => "unknown"

/-- `ConversationFlowService.NEGATIVE_KEYWORDS`. -/
def NEGATIVE_KEYWORDS : List String :=
  ["scam", "fraud", "report", "block", "lawsuit",
   "police", "complaint", "harassment", "stop messaging"]

/-- `ConversationFlowService.INTENT_PATTERNS`, in the source dict's insertion
order, each regex replaced by its semantics. -/
def INTENT_PATTERNS : List (ConversationIntent × List (List Char → Bool)) :=
  [(.greeting,
    [wordAlt ["hi", "hello", "hey", "hola", "sup", "whats up",
              "what" ++ apos ++ "s up"],
     greetingExact]),
   (.interest,
    [wordAlt ["interested", "tell me more", "sounds good", "sounds interesting"],
     wordAlt ["want to know", "curious", "learn more"],
     wordAlt ["yes please", "sure", "definitely", "absolutely"]]),
   (.positive,
    [wordAlt ["yes", "yeah", "yep", "yup", "ok", "okay", "sure", "great",
              "cool", "nice", "awesome"],
     wordAlt ["thanks", "thank you", "appreciate"],
     substrAlt ["👍", "❤️", "🙌", "💯", "✅"]]),
   (.negative,
    [wordAlt ["no", "nope", "not interested", "no thanks", "stop",
              "leave me alone"],
     wordAlt ["unsubscribe", "remove", "block"]]),
   (.objection,
    [wordAlt ["why", "how", "what if", "but", "however", "scam", "fake", "spam"],
     wordAlt ["is this legit", "are you real", "prove it"],
     wordAlt ["too good to be true", "sounds fishy"]]),
   (.question,
    [endsWithQ,
     fun m => ["what", "who", "where", "when", "how", "why", "which"].any
       (fun w => wordOccursCond w (fun rest => rest.contains '?') m),
     wordAlt ["can you", "could you", "would you"]]),
   (.request_human,
    [wordAlt ["real person", "human", "agent", "representative", "manager"],
     wordAlt ["speak to someone", "talk to", "connect me"]]),
   (.spam,
    [wordAlt ["buy followers", "make money fast", "crypto giveaway"],
     substrAlt ["bit.ly", "tinyurl.com"]])]

/-- `ConversationFlowService.detect_intent`: lowercase and strip, negative
keywords (plain substring search) take absolute priority and route to
`request_human`, then the first matching pattern category wins, else
`unknown`. -/
def detect_intent (message : String) : ConversationIntent :=
  let m := pyStrip (message.data.map Char.toLower)
  if NEGATIVE_KEYWORDS.any (fun k => isSubstring k.data m) then
    .request_human
  else
    match INTENT_PATTERNS.find? (fun ip => ip.2.any (fun pat => pat m)) with
    | some ip => ip.1
    | none => .unknown

/-- `FlowNodeType` (`end` is spelled `endNode`; `end` is a Lean keyword). -/
inductive FlowNodeType where
  | start | message | condition | delay | human_handoff | endNode
deriving DecidableEq, Repr

/-- `FlowNode`. -/
structure FlowNode where
  id : String
  node_type : FlowNodeType
  content : Option String := none
  template_id : Option String := none
  delay_seconds : Nat := 0
  next_nodes : List (String × String) := []
  default_next : Option String := none
deriving DecidableEq

/-- `ConversationFlow` (its `variables` dict is the field `vars`). -/
structure ConversationFlow where
  id : String
  name : String
  description : String
  nodes : List (String × FlowNode) := []
  start_node_id : String := "start"
  vars : List (String × String) := []
  platform : String := "all"
  is_active : Bool := true
deriving DecidableEq

/-- `ConversationState` (the `variables` dict is the field `vars`; `variables` is reserved in Lean). -/
structure ConversationState where
  conversation_id : String
  flow_id : String
  current_node_id : String
  vars : List (String × String) := []
  message_count : Nat := 0
  failed_intents : Nat := 0
  started_at : Int
  last_activity : Int
deriving DecidableEq

/-- `FlowResponse` (its `metadata` dict is only ever `\x7b"error": …\x7d`,
modelled as the `error` field). -/
structure FlowResponse where
  should_respond : Bool
  response_text : Option String := none
  next_node_id : Option String := none
  detected_intent : ConversationIntent := .unknown
  requires_human : Bool := false
  end_conversation : Bool := false
  delay_seconds : Nat := 0
  error : Option String := none
deriving DecidableEq, Repr

/-- The mutable state of `ConversationFlowService` (the spintax collaborator
is its template store, `None` when constructed without one). -/
structure ConvService where
  spintax : Option (List (String × Spintax.MessageTemplate))
  flows : List (String × ConversationFlow)
  states : List (String × ConversationState)

/-- `ConversationFlowService._replace_variables` (identical logic to the
spintax service's `replace_variables`). -/
def replaceVariablesText (text : String) (vars : List (String × String)) :
    String :=
  String.mk (Spintax.replace_variables text.data vars)

/-- The nodes of the default `standard_outreach` flow. -/
def standardNodes : List FlowNode :=
  [{ id := "start", node_type := .start, default_next := some "opening" },
   { id := "opening", node_type := .message,
     template_id := some "opening_friendly",
     next_nodes := [("positive", "value_prop"), ("interest", "value_prop"),
                    ("question", "answer_question"), ("negative", "polite_end"),
                    ("request_human", "human_handoff")],
     default_next := some "follow_up_1" },
   { id := "value_prop", node_type := .message,
     template_id := some "value_proposition",
     next_nodes := [("positive", "whatsapp_invite"), ("interest", "whatsapp_invite"),
                    ("objection", "handle_objection"), ("negative", "polite_end")],
     default_next := some "follow_up_2" },
   { id := "handle_objection", node_type := .message,
     template_id := some "objection_why_whatsapp",
     next_nodes := [("positive", "whatsapp_invite"), ("negative", "polite_end")],
     default_next := some "whatsapp_invite" },
   { id := "answer_question", node_type := .message,
     content := some ("That" ++ apos ++ "s a great question! [kol_name] shares insights on [niche] that you won" ++ apos ++ "t find anywhere else. Would you like to learn more?"),
     next_nodes := [("positive", "value_prop"), ("negative", "polite_end")],
     default_next := some "value_prop" },
   { id := "whatsapp_invite", node_type := .message,
     template_id := some "whatsapp_invite",
     default_next := some "conversion_check" },
   { id := "conversion_check", node_type := .message,
     content := some "Did you manage to join? Let me know if you have any issues! 😊",
     next_nodes := [("positive", "success_end"), ("negative", "retry_invite")],
     default_next := some "end" },
   { id := "follow_up_1", node_type := .delay, delay_seconds := 3600,
     default_next := some "follow_up_message_1" },
   { id := "follow_up_message_1", node_type := .message,
     template_id := some "follow_up_no_reply",
     default_next := some "end" },
   { id := "follow_up_2", node_type := .delay, delay_seconds := 86400,
     default_next := some "follow_up_message_2" },
   { id := "follow_up_message_2", node_type := .message,
     content := some ("Hey! Just wanted to check in one more time. The invite is still open if you" ++ apos ++ "re interested! 🙌"),
     default_next := some "end" },
   { id := "retry_invite", node_type := .message,
     content := some ("No worries! Here" ++ apos ++ "s the link again: [whatsapp_link]. Feel free to join whenever you" ++ apos ++ "re ready!"),
     default_next := some "end" },
   { id := "human_handoff", node_type := .human_handoff,
     content := some ("I" ++ apos ++ "ll connect you with someone who can help better. One moment!") },
   { id := "polite_end", node_type := .message,
     content := some "No problem at all! Thanks for your time. Take care! 👋",
     default_next := some "end" },
   { id := "success_end", node_type := .message,
     content := some "Awesome! Welcome aboard! 🎉 See you in the group!",
     default_next := some "end" },
   { id := "end", node_type := .endNode }]

/-- The default `standard_outreach` flow, with its nodes keyed by id in
insertion order. -/
def standardFlow : ConversationFlow :=
  { id := "standard_outreach"
    name := "Standard Outreach Flow"
    description := "Basic flow for converting followers to WhatsApp"
    nodes := standardNodes.map (fun n => (n.id, n)) }

/-- A freshly constructed `ConversationFlowService` with the given spintax
collaborator. -/
def initConvService
    (spintax : Option (List (String × Spintax.MessageTemplate))) : ConvService :=
  { spintax := spintax
    flows := [("standard_outreach", standardFlow)]
    states := [] }

/-- `ConversationFlowService.start_conversation` (raises `ValueError` on an
unknown flow id). -/
def start_conversation (svc : ConvService) (conversation_id flow_id : String)
    (vars : List (String × String)) (now : Int) :
    Except String (ConversationState × ConvService) :=
  match svc.flows.lookup flow_id with
  | none => .error ("Flow not found: " ++ flow_id)
  | some flow =>
    let state : ConversationState :=
      { conversation_id := conversation_id
        flow_id := flow_id
        current_node_id := flow.start_node_id
        vars := vars
        started_at := now
        last_activity := now }
    .ok (state, { svc with states := updateAssoc svc.states conversation_id state })

/-- The canned response of the three-unknowns human-handoff override. -/
def handoffText : String :=
  "I want to make sure I give you the best answer. Let me connect you with someone who can help!"

/-- `ConversationFlowService._process_node`.  A message node with both a
template id and a spintax collaborator generates through the spintax service
(whose template store is mutated: usage counter); otherwise the literal
content with variable substitution, else the empty text. -/
def process_node (svc : ConvService) (node : FlowNode)
    (state : ConversationState) (choices : Nat → Nat) :
    FlowResponse × ConvService :=
  match node.node_type with
  | .endNode => ({ should_respond := false, end_conversation := true }, svc)
  | .human_handoff =>
    ({ should_respond := true
       response_text := some (replaceVariablesText (node.content.getD "") state.vars)
       requires_human := true
       next_node_id := some node.id }, svc)
  | .delay =>
    ({ should_respond := false
       delay_seconds := node.delay_seconds
       next_node_id := node.default_next }, svc)
  | .message =>
    match node.template_id, svc.spintax with
    | some tid, some store =>
      let g := Spintax.generate_message store choices tid state.vars
      ({ should_respond := true
         response_text := some (match g.1 with
                                | some c => String.mk c
                                | none => "")
         next_node_id := some node.id }, { svc with spintax := some g.2 })
    | _, _ =>
      match node.content with
      | some content =>
        ({ should_respond := true
           response_text := some (replaceVariablesText content state.vars)
           next_node_id := some node.id }, svc)
      | none =>
        ({ should_respond := true
           response_text := some ""
           next_node_id := some node.id }, svc)
  | _ => ({ should_respond := false }, svc)

/-- `ConversationFlowService.process_message`.  State mutations
(`message_count`, `failed_intents`, `current_node_id`) persist on every path
that performs them, as the Python code mutates the stored object in place. -/
def process_message (svc : ConvService) (conversation_id : String)
    (incoming_message : String) (choices : Nat → Nat) (now : Int) :
    FlowResponse × ConvService :=
  match svc.states.lookup conversation_id with
  | none =>
    ({ should_respond := false, requires_human := true,
       error := some "Conversation not found" }, svc)
  | some state =>
    match svc.flows.lookup state.flow_id with
    | none =>
      ({ should_respond := false, requires_human := true,
         error := some "Flow not found" }, svc)
    | some flow =>
      match flow.nodes.lookup state.current_node_id with
      | none => ({ should_respond := false, end_conversation := true }, svc)
      | some current_node =>
        let intent := detect_intent incoming_message
        let state := { state with message_count := state.message_count + 1,
                                  last_activity := now }
        let state :=
          if intent = .unknown then
            { state with failed_intents := state.failed_intents + 1 }
          else state
        let svc := { svc with states := updateAssoc svc.states conversation_id state }
        if intent = .unknown && state.failed_intents ≥ 3 then
          ({ should_respond := true
             response_text := some handoffText
             requires_human := true
             detected_intent := intent }, svc)
        else
          match current_node.next_nodes.lookup (intentValue intent) |>.orElse
              (fun _ => current_node.default_next) with
          | none =>
            ({ should_respond := false, end_conversation := true,
               detected_intent := intent }, svc)
          | some next_node_id =>
            match flow.nodes.lookup next_node_id with
            | none =>
              ({ should_respond := false, end_conversation := true }, svc)
            | some next_node =>
              let r := process_node svc next_node state choices
              let response := { r.1 with detected_intent := intent }
              let state := { state with current_node_id := next_node_id }
              let svc := { r.2 with states := updateAssoc r.2.states conversation_id state }
              (response, svc)

end ConvFlow

namespace Scenarios

/-!
Concrete states used by the counterexamples and witnesses below.
-/

/-- A template store holding the template of the specification's `render`
example. -/
def c1Store : List (String × Spintax.MessageTemplate) :=
  [("t", { id := "t", template := "\x7bA|B\x7d [x]".data })]

/-- The variable map of the specification's `render` example. -/
def c1Vars : List (String × String) := [("x", "\x7bC|D\x7d")]

/-- Account `acc1` (age `new`: created at the same instant it is registered)
after 30 successful follow recordings, with no counter reset in between (all
at timestamp 0). -/
def c2State : Scheduler.SchedulerState :=
  Nat.iterate (fun s => Scheduler.record_action s "acc1" .follow true 0) 30
    (Scheduler.register_account Scheduler.initScheduler "acc1" (some 0) "UTC" 0).2

/-- A pool holding one banned proxy. -/
def c4Pool : ProxyPool.PoolState :=
  { proxies := [("p1", { id := "p1", host := "10.0.0.1", port := 8080,
                         status := .banned })]
    account_proxy_map := [] }

/-- A pool in which account `acc` holds a sticky assignment to proxy `p2`. -/
def c4PoolAssigned : ProxyPool.PoolState :=
  { proxies := [("p2", { id := "p2", host := "10.0.0.2", port := 8080,
                         assigned_to_account_id := some "acc" })]
    account_proxy_map := [("acc", "p2")] }

/-- `c4PoolAssigned` after the assigned proxy is banned. -/
def c4PoolSticky : ProxyPool.PoolState :=
  (ProxyPool.mark_proxy_banned c4PoolAssigned "p2").2

/-- A conversation-flow service (no spintax collaborator, as constructed by
default) with one started conversation `c1` on the default flow. -/
def c5Svc1 : ConvFlow.ConvService :=
  match ConvFlow.start_conversation (ConvFlow.initConvService none) "c1"
      "standard_outreach" [] 0 with
  | .ok r => r.2
  | .error _ => ConvFlow.initConvService none

/-- First inbound message: unknown intent. -/
def c5Step1 := ConvFlow.process_message c5Svc1 "c1" "zzz" (fun _ => 0) 1

/-- Second inbound message: recognized intent (`positive`). -/
def c5Step2 := ConvFlow.process_message c5Step1.2 "c1" "yes" (fun _ => 0) 2

/-- Third inbound message: unknown intent (first of a consecutive pair). -/
def c5Step3 := ConvFlow.process_message c5Step2.2 "c1" "zzz" (fun _ => 0) 3

/-- Fourth inbound message: unknown intent (only the second consecutive
unknown, but the third unknown overall). -/
def c5Step4 := ConvFlow.process_message c5Step3.2 "c1" "zzz" (fun _ => 0) 4

/-- A scheduler with one registered (mature) account `acc1`. -/
def c7State : Scheduler.SchedulerState :=
  (Scheduler.register_account Scheduler.initScheduler "acc1" none "UTC" 0).2

/-- The schedule state of `acc1` in `c7State`. -/
def c7St : Scheduler.AccountScheduleState :=
  (Scheduler.register_account Scheduler.initScheduler "acc1" none "UTC" 0).1

/-- A relationship whose DM was already sent (metadata `dm_sent` true). -/
def c10Rel : FollowBack.FollowRelationship :=
  { id := "a_b", sub_account_id := "a", target_user_id := "b",
    target_username := "bob", status := .mutual,
    followed_at := some 0, follow_back_at := some 50,
    timeout_at := some 604800, check_count := 4,
    metadata := { dm_sent := true, dm_sent_at := some "t0" } }

/-- A detector state holding `c10Rel`. -/
def c10State : FollowBack.DetectorState :=
  { relationships := [("a_b", c10Rel)] }

/-- A pool with a single active proxy (for exercising the availability
lookups). -/
def c4GoodPool : ProxyPool.PoolState :=
  { proxies := [("g1", { id := "g1", host := "h", port := 1 })]
    account_proxy_map := [] }

end Scenarios

-- ===================== THEOREMS =====================

namespace Spintax

/-- Unfolding one iteration of the `spin` loop when the pattern occurs. -/
theorem spinAux_succ_of_findSpin {ch : Nat → Nat} {fuel i : Nat}
    {cs p w s : List Char} (hf : findSpin cs = some (p, w, s)) :
    spinAux ch (fuel + 1) i cs =
      spinAux ch fuel (i + 1)
        (p ++ (splitBar w).getD (ch i % (splitBar w).length) [] ++ s) := by
  simp [spinAux, spinStep, hf]

/-- The `spin` loop stops as soon as the pattern no longer occurs. -/
theorem spinAux_of_findSpin_none {ch : Nat → Nat} {fuel i : Nat}
    {cs : List Char} (hf : findSpin cs = none) :
    spinAux ch fuel i cs = cs := by
  cases fuel <;> simp [spinAux, spinStep, hf]

end Spintax

/-- C1: FALSE as stated.  `generate_message` substitutes variables first and
then spins the whole text, so the braces of a substituted value are spun
away: on template `(A or B) [x]` with `x` bound to a `(C or D)` spintax
group, the branch choice stream that always picks the first option yields
`"A C"`, not `"A (C or D)"` with the braces intact. -/
theorem C1_counterexample :
    (Spintax.generate_message Scenarios.c1Store (fun _ => 0) "t"
        Scenarios.c1Vars).1 = some "A C".data ∧
      "A C".data ≠ "A \x7bC|D\x7d".data ∧
      "A C".data ≠ "B \x7bC|D\x7d".data := by
  decide

/-- C1 (amended): message generation substitutes variables first and *then*
resolves spintax over the substituted text, so substituted values ARE
re-interpreted as spintax: the substitution step turns the example template
into the two-group text, and for every random branch choice the generated
message is one of `"A C"`, `"A D"`, `"B C"`, `"B D"`. -/
theorem C1_substituted_values_are_respun :
    Spintax.replace_variables "\x7bA|B\x7d [x]".data Scenarios.c1Vars =
        "\x7bA|B\x7d \x7bC|D\x7d".data ∧
      ∀ choices : Nat → Nat,
        (Spintax.generate_message Scenarios.c1Store choices "t"
            Scenarios.c1Vars).1 ∈
          [some "A C".data, some "A D".data, some "B C".data, some "B D".data] := by
  refine ⟨by decide, fun ch => ?_⟩
  have hgen : (Spintax.generate_message Scenarios.c1Store ch "t"
      Scenarios.c1Vars).1 =
      some (Spintax.spin ch "\x7bA|B\x7d \x7bC|D\x7d".data) := by
    have hl : Scenarios.c1Store.lookup "t" =
        some { id := "t", template := "\x7bA|B\x7d [x]".data } := by decide
    have hrv : Spintax.replace_variables "\x7bA|B\x7d [x]".data
        Scenarios.c1Vars = "\x7bA|B\x7d \x7bC|D\x7d".data := by decide
    simp [Spintax.generate_message, hl, hrv]
  rw [hgen]
  have h1 : Spintax.findSpin "\x7bA|B\x7d \x7bC|D\x7d".data =
      some ([], "A|B".data, " \x7bC|D\x7d".data) := by decide
  have hs1 : Spintax.splitBar "A|B".data = ["A".data, "B".data] := by decide
  unfold Spintax.spin
  rw [Spintax.spinAux_succ_of_findSpin h1]
  rcases Nat.mod_two_eq_zero_or_one (ch 0) with h0 | h0
  · have e1 : ([] ++ (Spintax.splitBar "A|B".data).getD
        (ch 0 % (Spintax.splitBar "A|B".data).length) [] ++
        " \x7bC|D\x7d".data) = "A \x7bC|D\x7d".data := by
      rw [hs1]
      have h0' : ch 0 % List.length ["A".data, "B".data] = 0 := by simpa using h0
      rw [h0']; decide
    rw [e1]
    have h2 : Spintax.findSpin "A \x7bC|D\x7d".data =
        some ("A ".data, "C|D".data, []) := by decide
    have hs2 : Spintax.splitBar "C|D".data = ["C".data, "D".data] := by decide
    rw [Spintax.spinAux_succ_of_findSpin h2]
    rcases Nat.mod_two_eq_zero_or_one (ch 1) with h1b | h1b
    · have e2 : ("A ".data ++ (Spintax.splitBar "C|D".data).getD
          (ch 1 % (Spintax.splitBar "C|D".data).length) [] ++ ([] : List Char)) =
          "A C".data := by
        rw [hs2]
        have h1' : ch 1 % List.length ["C".data, "D".data] = 0 := by simpa using h1b
        rw [h1']; decide
      rw [e2, Spintax.spinAux_of_findSpin_none (by decide)]; decide
    · have e2 : ("A ".data ++ (Spintax.splitBar "C|D".data).getD
          (ch 1 % (Spintax.splitBar "C|D".data).length) [] ++ ([] : List Char)) =
          "A D".data := by
        rw [hs2]
        have h1' : ch 1 % List.length ["C".data, "D".data] = 1 := by simpa using h1b
        rw [h1']; decide
      rw [e2, Spintax.spinAux_of_findSpin_none (by decide)]; decide
  · have e1 : ([] ++ (Spintax.splitBar "A|B".data).getD
        (ch 0 % (Spintax.splitBar "A|B".data).length) [] ++
        " \x7bC|D\x7d".data) = "B \x7bC|D\x7d".data := by
      rw [hs1]
      have h0' : ch 0 % List.length ["A".data, "B".data] = 1 := by simpa using h0
      rw [h0']; decide
    rw [e1]
    have h2 : Spintax.findSpin "B \x7bC|D\x7d".data =
        some ("B ".data, "C|D".data, []) := by decide
    have hs2 : Spintax.splitBar "C|D".data = ["C".data, "D".data] := by decide
    rw [Spintax.spinAux_succ_of_findSpin h2]
    rcases Nat.mod_two_eq_zero_or_one (ch 1) with h1b | h1b
    · have e2 : ("B ".data ++ (Spintax.splitBar "C|D".data).getD
          (ch 1 % (Spintax.splitBar "C|D".data).length) [] ++ ([] : List Char)) =
          "B C".data := by
        rw [hs2]
        have h1' : ch 1 % List.length ["C".data, "D".data] = 0 := by simpa using h1b
        rw [h1']; decide
      rw [e2, Spintax.spinAux_of_findSpin_none (by decide)]; decide
    · have e2 : ("B ".data ++ (Spintax.splitBar "C|D".data).getD
          (ch 1 % (Spintax.splitBar "C|D".data).length) [] ++ ([] : List Char)) =
          "B D".data := by
        rw [hs2]
        have h1' : ch 1 % List.length ["C".data, "D".data] = 1 := by simpa using h1b
        rw [h1']; decide
      rw [e2, Spintax.spinAux_of_findSpin_none (by decide)]; decide

/-- C2: FALSE as stated.  In `can_execute_action` the hourly check precedes
the daily check; with 30 follows recorded and no counter reset the hourly
counter is also 30, far above the age-scaled hourly limit `int(20*0.3) = 6`,
so the returned reason is the hourly one, not
`"Daily limit reached (30/30)"`. -/
theorem C2_counterexample :
    (Scheduler.can_execute_action Scenarios.c2State "acc1" .follow
        "instagram" 0).1 ≠ (false, some "Daily limit reached (30/30)") := by
  decide

/-- C2 (amended): in the scenario of the claim the daily follow limit for a
`new` account is indeed `int(100*0.3) = 30`, but the hourly check (limit
`int(20*0.3) = 6`) fires first, so after 30 successful recorded follows with
no counter reset `can_execute_action` returns exactly
`(False, "Hourly limit reached (30/6)")`; the daily message could only be
observed after an hourly reset that leaves the daily counter intact. -/
theorem C2_hourly_limit_fires_first :
    (Scheduler.can_execute_action Scenarios.c2State "acc1" .follow
        "instagram" 0).1 = (false, some "Hourly limit reached (30/6)") ∧
      (Scheduler.lookupConfig Scheduler.initScheduler "instagram" .follow).map
          (fun c => (c.get_limit_for_age .new "daily",
                     c.get_limit_for_age .new "hourly")) = some (30, 6) := by
  decide

/-- C4: FALSE as stated.  `assign_proxy_to_account` never checks the status
of the proxy it returns: called with an explicit `proxy_id` of a banned proxy
it returns that banned proxy, and the sticky path returns the stored
assignment even after the proxy was banned. -/
theorem C4_counterexample :
    ((ProxyPool.assign_proxy_to_account Scenarios.c4Pool "acc" (some "p1")
          none).toOption.map (fun r => r.1.status) =
        some ProxyPool.ProxyStatus.banned) ∧
      ((ProxyPool.assign_proxy_to_account Scenarios.c4PoolSticky "acc" none
            none).toOption.map (fun r => r.1.status) =
        some ProxyPool.ProxyStatus.banned) := by
  decide

/-- C5: FALSE as stated.  `failed_intents` is never reset: a recognized
intent does not interrupt the count.  In a fresh conversation the messages
unknown, recognized (`"yes"` is detected as `positive`), unknown, unknown
leave `failed_intents = 1` after the recognized message (the claim's
consecutive count would be 0), and the fourth message — only the second
*consecutive* unknown — already returns the human handoff. -/
theorem C5_counterexample :
    ConvFlow.detect_intent "yes" = ConvFlow.ConversationIntent.positive ∧
      ConvFlow.detect_intent "zzz" = ConvFlow.ConversationIntent.unknown ∧
      (Scenarios.c5Step2.2.states.lookup "c1").map
          ConvFlow.ConversationState.failed_intents = some 1 ∧
      Scenarios.c5Step4.1.requires_human = true ∧
      Scenarios.c5Step4.1.response_text = some ConvFlow.handoffText := by
  decide

/-- C9: for an account id with no registered schedule state,
`can_execute_action` returns exactly `(False, "Account not registered")` and
leaves the scheduler untouched, and `record_action` and
`set_account_cooling` return with the scheduler state completely unchanged. -/
theorem C9_unregistered_account_behaviour (sch : Scheduler.SchedulerState)
    (aid : String) (a : Scheduler.ActionType) (platform : String)
    (succ : Bool) (d now t : Int) (r : Option String)
    (h : sch.account_states.lookup aid = none) :
    Scheduler.can_execute_action sch aid a platform now =
        ((false, some "Account not registered"), sch) ∧
      Scheduler.record_action sch aid a succ now = sch ∧
      Scheduler.set_account_cooling sch aid d r t = sch := by
  refine ⟨?_, ?_, ?_⟩ <;>
    simp [Scheduler.can_execute_action, Scheduler.record_action,
      Scheduler.set_account_cooling, h]

/-- C9 witness: the freshly constructed scheduler has no account `ghost`. -/
theorem C9_unregistered_account_behaviour_witness :
    Scheduler.can_execute_action Scheduler.initScheduler "ghost" .follow
        "instagram" 0 =
      ((false, some "Account not registered"), Scheduler.initScheduler) :=
  (C9_unregistered_account_behaviour Scheduler.initScheduler "ghost" .follow
    "instagram" true 30 0 0 none (by rfl)).1

namespace Util

/-- Looking up the written key after a dict update yields the new value. -/
theorem lookup_updateAssoc_self {α : Type} (l : List (String × α)) (k : String)
    (v : α) : (updateAssoc l k v).lookup k = some v := by
  induction l with
  | nil => simp [updateAssoc, List.lookup]
  | cons e t ih =>
    by_cases hek : e.1 = k
    · simp [updateAssoc, List.any_cons, hek, List.lookup]
    · by_cases hta : t.any (fun e => decide (e.1 = k)) = true
      · have h1 : updateAssoc (e :: t) k v =
            e :: (t.map (fun e => if e.1 = k then (k, v) else e)) := by
          simp [updateAssoc, List.any_cons, hek, hta]
        have h2 : updateAssoc t k v =
            t.map (fun e => if e.1 = k then (k, v) else e) := by
          simp [updateAssoc, hta]
        rw [h1, ← h2]
        have : (k == e.1) = false := by
          simpa [beq_iff_eq] using fun h => hek h.symm
        simp [List.lookup, this, ih]
      · have h1 : updateAssoc (e :: t) k v = e :: (t ++ [(k, v)]) := by
          simp [updateAssoc, List.any_cons, hek, hta]
        have h2 : updateAssoc t k v = t ++ [(k, v)] := by
          simp [updateAssoc, hta]
        rw [h1, ← h2]
        have : (k == e.1) = false := by
          simpa [beq_iff_eq] using fun h => hek h.symm
        simp [List.lookup, this, ih]

/-- Looking up a removed key yields nothing. -/
theorem lookup_removeAssoc_self {α : Type} (l : List (String × α)) (k : String) :
    (removeAssoc l k).lookup k = none := by
  induction l with
  | nil => simp [removeAssoc, List.lookup]
  | cons e t ih =>
    by_cases hek : e.1 = k
    · simpa [removeAssoc, hek] using ih
    · have : (k == e.1) = false := by
        simpa [beq_iff_eq] using fun h => hek h.symm
      simpa [removeAssoc, hek, List.lookup, this] using ih

end Util

namespace Scheduler

/-- Lazy counter resets do not touch the cooling flag. -/
theorem reset_counters_is_cooling (st : AccountScheduleState) (now : Int) :
    (reset_counters_if_needed st now).is_cooling = st.is_cooling := by
  unfold reset_counters_if_needed
  by_cases h1 : now ≥ st.hourly_reset_at + 3600 <;>
    simp only [h1, if_true, if_false, ite_true, ite_false] <;>
    split <;> rfl

/-- After the cooling gate, `can_execute_action` stores the checked account
state back (possibly with reset counters), whose cooling flag it preserves. -/
theorem can_execute_rest_is_cooling (sch : SchedulerState) (aid : String)
    (st : AccountScheduleState) (a : ActionType) (platform : String)
    (now : Int) :
    (((can_execute_rest sch aid st a platform now).2).account_states.lookup
        aid).map AccountScheduleState.is_cooling = some st.is_cooling := by
  unfold can_execute_rest
  cases h : lookupConfig sch platform a with
  | none => simp [saveState, Util.lookup_updateAssoc_self]
  | some config =>
    simp only []
    split
    · simp [saveState, Util.lookup_updateAssoc_self, reset_counters_is_cooling]
    · split
      · simp [saveState, Util.lookup_updateAssoc_self, reset_counters_is_cooling]
      · split
        · split <;>
            simp [saveState, Util.lookup_updateAssoc_self, reset_counters_is_cooling]
        · simp [saveState, Util.lookup_updateAssoc_self, reset_counters_is_cooling]

end Scheduler

/-- C7: cooling blocks every check strictly before `cooling_until` and expires
automatically afterwards.  For a registered account put in cooling at `t0` for
`d` minutes (so `cooling_until = t0 + d*60`): (1) at every `t < cooling_until`
the check returns `False` with the cooling reason; (2) at every
`t ≥ cooling_until` the check behaves exactly as the post-cooling limit logic
(`can_execute_rest`, i.e. cooling no longer blocks, and in particular the
check returns `(True, none)` whenever no hourly/daily/interval constraint
applies) and the stored cooling flag is cleared without manual intervention. -/
theorem C7_cooling_blocks_then_expires (sch : Scheduler.SchedulerState)
    (aid : String) (st : Scheduler.AccountScheduleState)
    (a : Scheduler.ActionType) (platform : String) (d t0 : Int)
    (reason : Option String)
    (h : sch.account_states.lookup aid = some st) :
    (∀ t : Int, t < t0 + d * 60 →
      (Scheduler.can_execute_action
          (Scheduler.set_account_cooling sch aid d reason t0) aid a platform
          t).1 =
        (false, some ("Account cooling until " ++ toString (t0 + d * 60)))) ∧
    (∀ t : Int, t0 + d * 60 ≤ t →
      Scheduler.can_execute_action
          (Scheduler.set_account_cooling sch aid d reason t0) aid a platform t =
        Scheduler.can_execute_rest
          (Scheduler.saveState (Scheduler.set_account_cooling sch aid d reason t0)
            aid
            { st with is_cooling := false, cooling_until := none,
                      cooling_reason := reason })
          aid
          { st with is_cooling := false, cooling_until := none,
                    cooling_reason := reason }
          a platform t ∧
      (((Scheduler.can_execute_action
            (Scheduler.set_account_cooling sch aid d reason t0) aid a platform
            t).2).account_states.lookup aid).map
          Scheduler.AccountScheduleState.is_cooling = some false) := by
  have hcool : (Scheduler.set_account_cooling sch aid d reason t0).account_states.lookup
      aid = some { st with is_cooling := true,
                           cooling_until := some (t0 + d * 60),
                           cooling_reason := reason } := by
    unfold Scheduler.set_account_cooling
    rw [h]
    exact Util.lookup_updateAssoc_self ..
  constructor
  · intro t ht
    unfold Scheduler.can_execute_action
    rw [hcool]
    simp [ht]
  · intro t ht
    have hnot : ¬ (t0 + d * 60 > t) := not_lt.mpr ht
    constructor
    · unfold Scheduler.can_execute_action
      rw [hcool]
      simp [hnot]
    · unfold Scheduler.can_execute_action
      rw [hcool]
      simp only [hnot, if_false, ite_false]
      simp [Scheduler.can_execute_rest_is_cooling]

/-- C7 witness: account `acc1` cooled for 30 minutes at time 0 is blocked at
time 100 with the cooling reason. -/
theorem C7_cooling_blocks_then_expires_witness :
    (Scheduler.can_execute_action
        (Scheduler.set_account_cooling Scenarios.c7State "acc1" 30 none 0)
        "acc1" .follow "instagram" 100).1 =
      (false, some ("Account cooling until " ++ toString (0 + 30 * 60 : Int))) :=
  (C7_cooling_blocks_then_expires Scenarios.c7State "acc1" Scenarios.c7St
    .follow "instagram" 30 0 none (by rfl)).1 100 (by decide)

/-- C8: sticky proxy assignment.  When an account already holds an assignment
whose proxy is still in the pool, `assign_proxy_to_account` returns that
exact proxy and leaves the pool completely unchanged — so a second call in a
row (no intervening release) is the same call on the same state and returns
the identical proxy id.  After `release_account_proxy` the account-to-proxy
mapping is removed and the proxy's `assigned_to_account_id` is cleared, so a
later assignment is no longer tied to the previous proxy. -/
theorem C8_sticky_assignment_and_release (pool : ProxyPool.PoolState)
    (acc pid : String) (p : ProxyPool.ProxyConfig)
    (hmap : pool.account_proxy_map.lookup acc = some pid)
    (hproxy : pool.proxies.lookup pid = some p) :
    ProxyPool.assign_proxy_to_account pool acc none none = .ok (p, pool) ∧
      (ProxyPool.release_account_proxy pool acc).1 = true ∧
      (ProxyPool.release_account_proxy pool acc).2.account_proxy_map.lookup acc =
        none ∧
      ((ProxyPool.release_account_proxy pool acc).2.proxies.lookup pid).map
          ProxyPool.ProxyConfig.assigned_to_account_id = some none := by
  refine ⟨?_, ?_, ?_, ?_⟩
  · simp [ProxyPool.assign_proxy_to_account, hmap, hproxy]
  · simp [ProxyPool.release_account_proxy, hmap]
  · simp [ProxyPool.release_account_proxy, hmap, hproxy,
      Util.lookup_removeAssoc_self]
  · simp [ProxyPool.release_account_proxy, hmap, hproxy,
      Util.lookup_updateAssoc_self]

/-- C8 witness: in the concrete pool where `acc` holds proxy `p2`, assignment
is sticky and release clears the mapping. -/
theorem C8_sticky_assignment_and_release_witness :
    (ProxyPool.release_account_proxy Scenarios.c4PoolAssigned
        "acc").2.account_proxy_map.lookup "acc" = none :=
  (C8_sticky_assignment_and_release Scenarios.c4PoolAssigned "acc" "p2"
    { id := "p2", host := "10.0.0.2", port := 8080,
      assigned_to_account_id := some "acc" }
    (by decide) (by decide)).2.2.1

namespace FollowBack

/-- `check_follow_back` never touches the relationship's metadata. -/
theorem check_follow_back_metadata (rel : FollowRelationship) (b : Bool)
    (t : Int) : (check_follow_back rel b t).2.metadata = rel.metadata := by
  unfold check_follow_back
  dsimp only
  repeat' split
  all_goals rfl

end FollowBack

/-- C10: re-registering a follow for an existing relationship resets only
`status`, `followed_at` and `timeout_at`, leaving `metadata` (including
`dm_sent`), `is_private_account`, `check_count` and every other field
unchanged; consequently a re-followed target whose `dm_sent` flag was set is
never returned by `get_dm_ready_targets`, even after a check makes it mutual
again (checks preserve metadata too). -/
theorem C10_reregistration_frame (s : FollowBack.DetectorState)
    (sub target username : String) (priv : Bool) (now : Int)
    (rel : FollowBack.FollowRelationship)
    (h : s.relationships.lookup (sub ++ "_" ++ target) = some rel) :
    (FollowBack.register_follow s sub target username priv now).1 =
      { rel with
          status := if priv then FollowBack.FollowStatus.pending
                    else FollowBack.FollowStatus.following
          followed_at := some now
          timeout_at := some (now + (s.timeout_days : Int) * 86400) } ∧
    ∀ (b : Bool) (t : Int),
      (FollowBack.check_follow_back
          (FollowBack.register_follow s sub target username priv now).1 b
          t).2.metadata = rel.metadata ∧
      (rel.metadata.dm_sent = true →
        ∀ (s2 : FollowBack.DetectorState) (acc : String),
          (FollowBack.check_follow_back
              (FollowBack.register_follow s sub target username priv now).1 b
              t).2 ∉ FollowBack.get_dm_ready_targets s2 acc) := by
  have hreg : (FollowBack.register_follow s sub target username priv now).1 =
      { rel with
          status := if priv then FollowBack.FollowStatus.pending
                    else FollowBack.FollowStatus.following
          followed_at := some now
          timeout_at := some (now + (s.timeout_days : Int) * 86400) } := by
    unfold FollowBack.register_follow
    dsimp only
    rw [h]
  have hmeta : ∀ (b : Bool) (t : Int),
      (FollowBack.check_follow_back
          (FollowBack.register_follow s sub target username priv now).1 b
          t).2.metadata = rel.metadata := by
    intro b t
    rw [hreg, FollowBack.check_follow_back_metadata]
  refine ⟨hreg, fun b t => ⟨hmeta b t, ?_⟩⟩
  intro hdm s2 acc hmem
  unfold FollowBack.get_dm_ready_targets at hmem
  have hp := List.of_mem_filter hmem
  rw [hmeta b t, hdm] at hp
  simp at hp

/-- C10 witness: the re-followed, re-mutualized target of the concrete state
(whose DM was already sent) is not DM-ready. -/
theorem C10_reregistration_frame_witness :
    (FollowBack.check_follow_back
        (FollowBack.register_follow Scenarios.c10State "a" "b" "bob" false
          100).1 true 200).2 ∉
      FollowBack.get_dm_ready_targets Scenarios.c10State "a" :=
  ((C10_reregistration_frame Scenarios.c10State "a" "b" "bob" false 100
    Scenarios.c10Rel (by decide)).2 true 200).2 (by decide) Scenarios.c10State
    "a"

namespace FollowBack

/-- A check on an already-mutual relationship reports nothing and keeps the
status mutual (level-triggered rechecks never set `should_dm`). -/
theorem check_mutual (rel : FollowRelationship) (b : Bool) (t : Int)
    (h : rel.status = .mutual) :
    (check_follow_back rel b t).1.should_dm = false ∧
      (check_follow_back rel b t).1.changed = false ∧
      (check_follow_back rel b t).2.status = .mutual := by
  unfold check_follow_back
  dsimp only
  cases b <;> repeat' split
  all_goals simp_all

/-- The first check that sees a positive probe on a not-yet-mutual
relationship reports the transition: `changed`, `should_dm`, status mutual. -/
theorem check_nonmutual_true (rel : FollowRelationship) (t : Int)
    (h : rel.status ≠ .mutual) :
    (check_follow_back rel true t).1.should_dm = true ∧
      (check_follow_back rel true t).1.changed = true ∧
      (check_follow_back rel true t).2.status = .mutual := by
  unfold check_follow_back
  dsimp only
  simp [h]

/-- A negative probe reports no transition and leaves the status unchanged
(only the timeout flag may be raised). -/
theorem check_false (rel : FollowRelationship) (t : Int) :
    (check_follow_back rel false t).1.should_dm = false ∧
      (check_follow_back rel false t).1.changed = false ∧
      (check_follow_back rel false t).2.status = rel.status := by
  unfold check_follow_back
  dsimp only
  repeat' split
  all_goals simp_all

/-- Once mutual, every later check in a sequence reports `should_dm = false`
and `changed = false`, and the status stays mutual. -/
theorem runChecks_mutual (probes : List (Bool × Int))
    (rel : FollowRelationship) (h : rel.status = .mutual) :
    (runChecks rel probes).1.map DetectionResult.should_dm =
        List.replicate probes.length false ∧
      (runChecks rel probes).1.map DetectionResult.changed =
        List.replicate probes.length false ∧
      (runChecks rel probes).2.status = .mutual := by
  induction probes generalizing rel with
  | nil => simpa [runChecks] using h
  | cons pr rest ih =>
    obtain ⟨b, t⟩ := pr
    have hc := check_mutual rel b t h
    have ihh := ih (check_follow_back rel b t).2 hc.2.2
    refine ⟨?_, ?_, ?_⟩
    · simp [runChecks, List.replicate_succ, hc.1, ihh.1]
    · simp [runChecks, List.replicate_succ, hc.2.1, ihh.2.1]
    · simp [runChecks, ihh.2.2]

/-- On a not-yet-mutual relationship, the `should_dm` and `changed` flags of a
sequence of checks form exactly the first-true mask of the probe verdicts,
and the final status is mutual precisely when some probe was positive. -/
theorem runChecks_spec (probes : List (Bool × Int)) (rel : FollowRelationship)
    (h : rel.status ≠ .mutual) :
    (runChecks rel probes).1.map DetectionResult.should_dm =
        firstTrueMask (probes.map Prod.fst) ∧
      (runChecks rel probes).1.map DetectionResult.changed =
        firstTrueMask (probes.map Prod.fst) ∧
      (runChecks rel probes).2.status =
        (if (probes.map Prod.fst).any id then FollowStatus.mutual
         else rel.status) := by
  induction probes generalizing rel with
  | nil => simp [runChecks, firstTrueMask]
  | cons pr rest ih =>
    obtain ⟨b, t⟩ := pr
    cases b
    · have hc := check_false rel t
      have hs : (check_follow_back rel false t).2.status ≠ .mutual := by
        rw [hc.2.2]; exact h
      have ihh := ih (check_follow_back rel false t).2 hs
      refine ⟨?_, ?_, ?_⟩
      · simp [runChecks, firstTrueMask, hc.1, ihh.1]
      · simp [runChecks, firstTrueMask, hc.2.1, ihh.2.1]
      · simp only [runChecks, List.map_cons, List.any_cons, id_eq, Bool.false_or]
        rw [ihh.2.2, hc.2.2]
    · have hc := check_nonmutual_true rel t h
      have hm := runChecks_mutual rest (check_follow_back rel true t).2 hc.2.2
      refine ⟨?_, ?_, ?_⟩
      · simp [runChecks, firstTrueMask, hc.1, hm.1]
      · simp [runChecks, firstTrueMask, hc.2.1, hm.2.1]
      · simp [runChecks, firstTrueMask, hm.2.2]

/-- `register_follow` with `is_private = False` always yields a relationship
in status `following`, whether or not the pair was already tracked. -/
theorem register_follow_status (s : DetectorState)
    (sub target username : String) (now : Int) :
    ((register_follow s sub target username false now).1).status =
      .following := by
  unfold register_follow
  dsimp only
  cases h : List.lookup (sub ++ "_" ++ target) s.relationships <;> simp [h]

end FollowBack

/-- C6: transition-triggered DM signalling.  For a relationship registered via
`register_follow(acc, target, is_private = False)` (status `following`) and
any sequence of follow-back checks with arbitrary probe verdicts and
timestamps: `should_dm` (and `changed`) is true exactly on the first check
whose probe reports follow-back — the `following → mutual` transition — and
false on every other check, in particular on every subsequent check even if
the target is still following back; the relationship ends mutual exactly when
some probe was positive, i.e. it transitions to mutual at most once. -/
theorem C6_should_dm_transition_triggered (s : FollowBack.DetectorState)
    (sub target username : String) (now : Int) (probes : List (Bool × Int)) :
    (FollowBack.runChecks
          (FollowBack.register_follow s sub target username false now).1
          probes).1.map FollowBack.DetectionResult.should_dm =
        FollowBack.firstTrueMask (probes.map Prod.fst) ∧
      (FollowBack.runChecks
          (FollowBack.register_follow s sub target username false now).1
          probes).1.map FollowBack.DetectionResult.changed =
        FollowBack.firstTrueMask (probes.map Prod.fst) ∧
      (FollowBack.runChecks
          (FollowBack.register_follow s sub target username false now).1
          probes).2.status =
        (if (probes.map Prod.fst).any id then FollowBack.FollowStatus.mutual
         else FollowBack.FollowStatus.following) := by
  have h0 := FollowBack.register_follow_status s sub target username now
  have h := FollowBack.runChecks_spec probes
    (FollowBack.register_follow s sub target username false now).1
    (by rw [h0]; intro hh; cases hh)
  refine ⟨h.1, h.2.1, ?_⟩
  rw [h.2.2, h0]

namespace ProxyPool

/-- A proxy the availability filter lets through is never banned (it was not
banned on entry, and the only status write on this path reactivates a cooled
proxy to active). -/
theorem availStep_not_banned (now : Int) (c : Option String)
    (q : Option ProxyQuality) (ex : Bool) (p : ProxyConfig)
    (h : (availStep now c q ex p).1 = true) :
    (availStep now c q ex p).2.status ≠ .banned := by
  unfold availStep at h ⊢
  dsimp only at h ⊢
  split_ifs at h ⊢ <;> simp_all

/-- Invariant of the `get_available_proxies` fold: the accumulated available
list never holds a banned proxy. -/
theorem avail_fold_not_banned (now : Int) (country : Option String)
    (quality : Option ProxyQuality) (exclude_assigned : Bool) :
    ∀ (l : List (String × ProxyConfig))
      (acc : List ProxyConfig × List (String × ProxyConfig)),
      (∀ x ∈ acc.1, x.status ≠ .banned) →
      ∀ x ∈ (l.foldl
          (fun (acc : List ProxyConfig × List (String × ProxyConfig)) kv =>
            let step := availStep now country quality exclude_assigned kv.2
            (if step.1 then acc.1 ++ [step.2] else acc.1,
             acc.2 ++ [(kv.1, step.2)])) acc).1,
        x.status ≠ .banned := by
  intro l
  induction l with
  | nil => intro acc hacc x hx; exact hacc x hx
  | cons kv t ih =>
    intro acc hacc x hx
    refine ih _ ?_ x hx
    intro y hy
    by_cases hs : (availStep now country quality exclude_assigned kv.2).1 = true
    · simp only [hs, if_true, ite_true, List.mem_append, List.mem_singleton] at hy
      rcases hy with hy | hy
      · exact hacc y hy
      · rw [hy]
        exact availStep_not_banned now country quality exclude_assigned kv.2 hs
    · simp only [Bool.not_eq_true] at hs
      simp only [hs, if_false, ite_false] at hy
      exact hacc y hy

/-- `get_available_proxies` never lists a banned proxy. -/
theorem get_available_not_banned (pool : PoolState) (c : Option String)
    (q : Option ProxyQuality) (ex : Bool) (now : Int) :
    ∀ x ∈ (get_available_proxies pool c q ex now).1, x.status ≠ .banned := by
  unfold get_available_proxies
  dsimp only
  exact avail_fold_not_banned now c q ex pool.proxies ([], []) (by simp)

/-- Insertion keeps exactly the elements. -/
theorem mem_insertLe (le : ProxyConfig → ProxyConfig → Bool) (x : ProxyConfig)
    (l : List ProxyConfig) (y : ProxyConfig) :
    y ∈ insertLe le x l ↔ y = x ∨ y ∈ l := by
  induction l with
  | nil => simp [insertLe]
  | cons z zs ih =>
    unfold insertLe
    split
    · simp
    · simp only [List.mem_cons, ih]
      tauto

/-- Sorting keeps exactly the elements. -/
theorem mem_sortProxies (le : ProxyConfig → ProxyConfig → Bool)
    (l : List ProxyConfig) (y : ProxyConfig) :
    y ∈ sortProxies le l ↔ y ∈ l := by
  induction l with
  | nil => simp [sortProxies]
  | cons z zs ih => simp [sortProxies, mem_insertLe, ih]

/-- Insertion never produces the empty list. -/
theorem insertLe_ne_nil (le : ProxyConfig → ProxyConfig → Bool)
    (x : ProxyConfig) (l : List ProxyConfig) : insertLe le x l ≠ [] := by
  cases l with
  | nil => simp [insertLe]
  | cons z zs =>
    unfold insertLe
    split <;> simp

/-- Sorting a nonempty list yields a nonempty list. -/
theorem sortProxies_ne_nil (le : ProxyConfig → ProxyConfig → Bool)
    (l : List ProxyConfig) (h : l ≠ []) : sortProxies le l ≠ [] := by
  cases l with
  | nil => exact absurd rfl h
  | cons z zs => exact insertLe_ne_nil le z (sortProxies le zs)

/-- The default-headed head of a nonempty list is a member. -/
theorem headD_mem (l : List ProxyConfig) (d : ProxyConfig) (h : l ≠ []) :
    l.headD d ∈ l := by
  cases l with
  | nil => exact absurd rfl h
  | cons z zs => simp [List.headD]

end ProxyPool

/-- C4 (amended): the availability-based lookups never return a banned proxy:
every proxy listed by `get_available_proxies`, the proxy returned by
`get_best_proxy` and the proxy returned by `get_random_proxy` (under any
random draw) all have a status other than `banned`.  (As the counterexample
shows, this does NOT extend to `assign_proxy_to_account`, whose sticky path
and explicit-`proxy_id` path skip the status check.) -/
theorem C4_availability_lookups_never_return_banned
    (pool : ProxyPool.PoolState) (c : Option String)
    (q : Option ProxyPool.ProxyQuality) (ex : Bool) (now : Int) (k : Nat) :
    (∀ x ∈ (ProxyPool.get_available_proxies pool c q ex now).1,
        x.status ≠ .banned) ∧
      (∀ (p : ProxyPool.ProxyConfig) (pl : ProxyPool.PoolState),
        ProxyPool.get_best_proxy pool c q now = .ok (p, pl) →
          p.status ≠ .banned) ∧
      (∀ (p : ProxyPool.ProxyConfig) (pl : ProxyPool.PoolState),
        ProxyPool.get_random_proxy pool c q k now = .ok (p, pl) →
          p.status ≠ .banned) := by
  refine ⟨ProxyPool.get_available_not_banned pool c q ex now, ?_, ?_⟩
  · intro p pl h
    unfold ProxyPool.get_best_proxy at h
    dsimp only at h
    by_cases he : (ProxyPool.get_available_proxies pool c q false now).1.isEmpty
    · simp [he] at h
    · simp only [he, if_false, ite_false] at h
      have hne : (ProxyPool.get_available_proxies pool c q false now).1 ≠ [] := by
        simpa [List.isEmpty_iff] using he
      have hp : p = (ProxyPool.sortProxies ProxyPool.bestLe
          (ProxyPool.get_available_proxies pool c q false now).1).headD default := by
        cases h; rfl
      have hmem : p ∈ (ProxyPool.get_available_proxies pool c q false now).1 := by
        rw [hp]
        exact (ProxyPool.mem_sortProxies _ _ _).mp
          (ProxyPool.headD_mem _ _ (ProxyPool.sortProxies_ne_nil _ _ hne))
      exact ProxyPool.get_available_not_banned pool c q false now p hmem
  · intro p pl h
    unfold ProxyPool.get_random_proxy at h
    dsimp only at h
    by_cases he : (ProxyPool.get_available_proxies pool c q false now).1.isEmpty
    · simp [he] at h
    · simp only [he, if_false, ite_false] at h
      have hne : (ProxyPool.get_available_proxies pool c q false now).1 ≠ [] := by
        simpa [List.isEmpty_iff] using he
      have hlen : 0 < (ProxyPool.get_available_proxies pool c q false now).1.length :=
        List.length_pos.mpr hne
      have hp : p = (ProxyPool.get_available_proxies pool c q false now).1.getD
          (k % (ProxyPool.get_available_proxies pool c q false now).1.length)
          default := by
        cases h; rfl
      have hmem : p ∈ (ProxyPool.get_available_proxies pool c q false now).1 := by
        rw [hp]
        have hlt := Nat.mod_lt k hlen
        rw [List.getD_eq_get _ _ hlt]
        exact List.get_mem _ _ _
      exact ProxyPool.get_available_not_banned pool c q false now p hmem

/-- C4 witness: in the one-proxy pool the best proxy is returned and is not
banned. -/
theorem C4_availability_lookups_never_return_banned_witness :
    ({ id := "g1", host := "h", port := 1 } :
        ProxyPool.ProxyConfig).status ≠ .banned :=
  (C4_availability_lookups_never_return_banned Scenarios.c4GoodPool none none
    false 0 0).2.1 { id := "g1", host := "h", port := 1 }
    (ProxyPool.get_available_proxies Scenarios.c4GoodPool none none false 0).2
    (by rfl)

/-- C5 (amended): `failed_intents` counts unknown-intent inbound messages
cumulatively over the whole conversation — a message with a recognized intent
leaves the counter unchanged rather than interrupting (resetting) it — and
`process_message` returns the automatic human-handoff response (bypassing the
current node's routing entirely) on any unknown-intent message that brings
the cumulative count to three or more, consecutive or not. -/
theorem C5_failed_intents_cumulative (svc : ConvFlow.ConvService)
    (cid msg : String) (ch : Nat → Nat) (now : Int)
    (state : ConvFlow.ConversationState) (flow : ConvFlow.ConversationFlow)
    (node : ConvFlow.FlowNode)
    (hstate : svc.states.lookup cid = some state)
    (hflow : svc.flows.lookup state.flow_id = some flow)
    (hnode : flow.nodes.lookup state.current_node_id = some node) :
    (ConvFlow.detect_intent msg ≠ .unknown →
      ((ConvFlow.process_message svc cid msg ch now).2.states.lookup cid).map
          ConvFlow.ConversationState.failed_intents =
        some state.failed_intents) ∧
    (ConvFlow.detect_intent msg = .unknown →
      ((ConvFlow.process_message svc cid msg ch now).2.states.lookup cid).map
          ConvFlow.ConversationState.failed_intents =
        some (state.failed_intents + 1) ∧
      (3 ≤ state.failed_intents + 1 →
        (ConvFlow.process_message svc cid msg ch now).1 =
          { should_respond := true,
            response_text := some ConvFlow.handoffText,
            requires_human := true,
            detected_intent := .unknown })) := by
  constructor
  · intro hdet
    unfold ConvFlow.process_message
    rw [hstate]
    dsimp only
    rw [hflow]
    dsimp only
    rw [hnode]
    dsimp only
    simp only [hdet, if_false, ite_false, decide_eq_true_eq, Bool.false_and,
      decide_False, Bool.false_eq_true]
    split
    · simp [Util.lookup_updateAssoc_self]
    · split
      · simp [Util.lookup_updateAssoc_self]
      · simp [Util.lookup_updateAssoc_self]
  · intro hdet
    unfold ConvFlow.process_message
    rw [hstate]
    dsimp only
    rw [hflow]
    dsimp only
    rw [hnode]
    dsimp only
    by_cases h3 : 3 ≤ state.failed_intents + 1
    · simp only [hdet, if_true, ite_true, decide_True, Bool.true_and,
        decide_eq_true_eq, h3]
      constructor
      · simp [Util.lookup_updateAssoc_self]
      · intro _
        trivial
    · simp only [hdet, if_true, ite_true, decide_True, Bool.true_and,
        decide_eq_true_eq, h3, decide_False, Bool.false_eq_true, if_false,
        ite_false]
      constructor
      · split
        · simp [Util.lookup_updateAssoc_self]
        · split
          · simp [Util.lookup_updateAssoc_self]
          · simp [Util.lookup_updateAssoc_self]
      · intro h3'
        exact h3'.elim

/-- C5 witness: in the concrete conversation (unknown, recognized, unknown
stored so far: cumulative count 2) the next unknown message triggers the
handoff response. -/
theorem C5_failed_intents_cumulative_witness :
    (ConvFlow.process_message Scenarios.c5Step3.2 "c1" "zzz" (fun _ => 0)
        4).1 =
      { should_respond := true, response_text := some ConvFlow.handoffText,
        requires_human := true,
        detected_intent := ConvFlow.ConversationIntent.unknown } :=
  ((C5_failed_intents_cumulative Scenarios.c5Step3.2 "c1" "zzz" (fun _ => 0) 4
    { conversation_id := "c1", flow_id := "standard_outreach",
      current_node_id := "follow_up_2", vars := [], message_count := 3,
      failed_intents := 2, started_at := 0, last_activity := 3 }
    ConvFlow.standardFlow
    { id := "follow_up_2", node_type := .delay, delay_seconds := 86400,
      default_next := some "follow_up_message_2" }
    (by decide) (by decide) (by decide)).2 (by decide)).2 (by decide)

namespace Spintax

open Util

/-- `scanDepth` distributes over concatenation. -/
theorem scanDepth_append (p s : List Char) :
    ∀ d, scanDepth d (p ++ s) = (scanDepth d p).bind (fun e => scanDepth e s) := by
  induction p with
  | nil => intro d; simp [scanDepth]
  | cons c t ih =>
    intro d
    by_cases h1 : c = lbrace
    · simp [scanDepth, h1, ih]
    · by_cases h2 : c = rbrace
      · cases d with
        | zero => simp [scanDepth, h1, h2, show ¬ rbrace = lbrace from by decide]
        | succ e => simp [scanDepth, h1, h2, ih,
            show ¬ rbrace = lbrace from by decide]
      · simp [scanDepth, h1, h2, ih]

/-- Brace-free text does not change the depth. -/
theorem scanDepth_nonbrace (l : List Char)
    (h : ∀ c ∈ l, isBrace c = false) : ∀ d, scanDepth d l = some d := by
  induction l with
  | nil => intro d; simp [scanDepth]
  | cons c t ih =>
    intro d
    have hc := h c (List.mem_cons_self c t)
    have h1 : ¬ c = lbrace := by
      intro hh; rw [hh] at hc; simp [isBrace] at hc
    have h2 : ¬ c = rbrace := by
      intro hh; rw [hh] at hc; simp [isBrace] at hc
    simp [scanDepth, h1, h2]
    exact ih (fun x hx => h x (List.mem_cons_of_mem c hx)) d

/-- The depth scan balances the brace counts. -/
theorem scanDepth_count (l : List Char) :
    ∀ d e, scanDepth d l = some e →
      d + l.count lbrace = e + l.count rbrace := by
  induction l with
  | nil =>
    intro d e h
    simp [scanDepth] at h
    simp [h]
  | cons c t ih =>
    intro d e h
    by_cases h1 : c = lbrace
    · rw [h1] at h ⊢
      simp only [scanDepth, if_pos rfl] at h
      have := ih (d + 1) e h
      have hne : (lbrace == rbrace) = false := by decide
      simp [List.count_cons, hne]
      omega
    · by_cases h2 : c = rbrace
      · rw [h2] at h ⊢
        cases d with
        | zero => simp [scanDepth, show ¬ rbrace = lbrace from by decide] at h
        | succ e' =>
          simp only [scanDepth, show ¬ rbrace = lbrace from by decide,
            if_false, ite_false, if_pos rfl] at h
          have := ih e' e h
          have hne : (rbrace == lbrace) = false := by decide
          simp [List.count_cons, hne]
          omega
      · simp only [scanDepth, h1, h2, if_false, ite_false] at h
        have := ih d e h
        have hne1 : (c == lbrace) = false := by simp [h1]
        have hne2 : (c == rbrace) = false := by simp [h2]
        simp [List.count_cons, hne1, hne2]
        omega

/-- A positive-depth suffix whose scan closes must contain a closing brace. -/
theorem rbrace_mem_of_scan (l : List Char) (d : Nat)
    (h : scanDepth d l = some 0) (hd : 0 < d) : rbrace ∈ l := by
  have hc := scanDepth_count l d 0 h
  have : 0 < l.count rbrace := by omega
  exact List.count_pos_iff.mp this

/-- Split a list at the last occurrence of an element. -/
theorem exists_last_mem {c : Char} :
    ∀ (l : List Char), c ∈ l → ∃ p s, l = p ++ c :: s ∧ c ∉ s := by
  intro l
  induction l with
  | nil => intro h; cases h
  | cons a t ih =>
    intro h
    by_cases hct : c ∈ t
    · obtain ⟨p, s, hps, hns⟩ := ih hct
      exact ⟨a :: p, s, by rw [hps]; rfl, hns⟩
    · have hac : a = c := by
        rcases List.mem_cons.mp h with h' | h'
        · exact h'.symm
        · exact absurd h' hct
      exact ⟨[], t, by rw [hac]; rfl, hct⟩

/-- Split a list at the first occurrence of an element. -/
theorem exists_first_mem {c : Char} :
    ∀ (l : List Char), c ∈ l → ∃ p s, l = p ++ c :: s ∧ c ∉ p := by
  intro l
  induction l with
  | nil => intro h; cases h
  | cons a t ih =>
    intro h
    by_cases hac : a = c
    · exact ⟨[], t, by rw [hac]; rfl, List.not_mem_nil c⟩
    · have hct : c ∈ t := by
        rcases List.mem_cons.mp h with h' | h'
        · exact absurd h'.symm hac
        · exact h'
      obtain ⟨p, s, hps, hnp⟩ := ih hct
      refine ⟨a :: p, s, by rw [hps]; rfl, ?_⟩
      intro hmem
      rcases List.mem_cons.mp hmem with h' | h'
      · exact hac h'.symm
      · exact hnp h'

/-- `takeWhile` over a satisfied prefix followed by a failing element. -/
theorem takeWhile_all_append (P : Char → Bool) (w : List Char) (x : Char)
    (s : List Char) (hw : ∀ c ∈ w, P c = true) (hx : P x = false) :
    (w ++ x :: s).takeWhile P = w := by
  induction w with
  | nil => simp [List.takeWhile, hx]
  | cons a t ih =>
    have ha := hw a (List.mem_cons_self a t)
    simp [List.takeWhile, ha]
    exact ih (fun c hc => hw c (List.mem_cons_of_mem a hc))

/-- `dropWhile` over a satisfied prefix followed by a failing element. -/
theorem dropWhile_all_append (P : Char → Bool) (w : List Char) (x : Char)
    (s : List Char) (hw : ∀ c ∈ w, P c = true) (hx : P x = false) :
    (w ++ x :: s).dropWhile P = x :: s := by
  induction w with
  | nil => simp [List.dropWhile, hx]
  | cons a t ih =>
    have ha := hw a (List.mem_cons_self a t)
    simp [List.dropWhile, ha]
    exact ih (fun c hc => hw c (List.mem_cons_of_mem a hc))

/-- Every element of a `takeWhile` satisfies the predicate. -/
theorem all_takeWhile (P : Char → Bool) :
    ∀ (l : List Char), ∀ c ∈ l.takeWhile P, P c = true := by
  intro l
  induction l with
  | nil => intro c hc; cases hc
  | cons a t ih =>
    intro c hc
    by_cases ha : P a = true
    · rw [List.takeWhile_cons, if_pos ha] at hc
      rcases List.mem_cons.mp hc with h' | h'
      · rw [h']; exact ha
      · exact ih c h'
    · rw [List.takeWhile_cons, if_neg ha] at hc
      cases hc

/-- The matcher succeeds on a well-placed innermost group. -/
theorem matchAt_complete (w s' : List Char) (hne : w ≠ [])
    (hnb : ∀ c ∈ w, isBrace c = false) :
    matchAt (lbrace :: (w ++ rbrace :: s')) = some (w, s') := by
  unfold matchAt
  dsimp only
  rw [if_pos rfl]
  rw [takeWhile_all_append _ _ _ _ (fun c hc => by simp [hnb c hc]) (by simp [isBrace])]
  rw [dropWhile_all_append _ _ _ _ (fun c hc => by simp [hnb c hc]) (by simp [isBrace])]
  have hie : w.isEmpty = false := by
    cases w with
    | nil => exact absurd rfl hne
    | cons a t => rfl
  simp [hie]

/-- The matcher's success exposes the group structure. -/
theorem matchAt_sound (cs w tail : List Char)
    (h : matchAt cs = some (w, tail)) :
    cs = lbrace :: (w ++ rbrace :: tail) ∧ w ≠ [] ∧
      ∀ c ∈ w, isBrace c = false := by
  unfold matchAt at h
  cases cs with
  | nil => cases h
  | cons c rest =>
    dsimp only at h
    by_cases hc : c = lbrace
    · rw [if_pos hc] at h
      cases hd : rest.dropWhile (fun d => !isBrace d) with
      | nil => rw [hd] at h; cases h
      | cons d tl =>
        rw [hd] at h
        dsimp only at h
        by_cases hcond : (d = rbrace && !(rest.takeWhile (fun d => !isBrace d)).isEmpty) = true
        · rw [if_pos hcond] at h
          obtain ⟨hdr, hine⟩ := Bool.and_eq_true_iff.mp hcond
          have hdr' : d = rbrace := by simpa using hdr
          have hpair := Option.some.inj h
          have hw : List.takeWhile (fun d => !isBrace d) rest = w :=
            congrArg Prod.fst hpair
          have htl : tl = tail := congrArg Prod.snd hpair
          have hsplit := List.takeWhile_append_dropWhile
            (p := fun d => !isBrace d) (l := rest)
          have hrest : rest = w ++ rbrace :: tail := by
            conv_lhs => rw [← hsplit]
            rw [hd, hdr', hw, htl]
          refine ⟨?_, ?_, ?_⟩
          · rw [hc, hrest]
          · rw [hw] at hine
            intro hweq
            rw [hweq] at hine
            simp at hine
          · intro x hx
            rw [← hw] at hx
            have := all_takeWhile (fun d => !isBrace d) rest x hx
            simpa using this
        · rw [if_neg hcond] at h; cases h
    · rw [if_neg hc] at h; cases h

/-- If the matcher succeeds somewhere, the scan finds a match. -/
theorem findSpin_ne_none_of_matchAt :
    ∀ (p rest : List Char), matchAt rest ≠ none → findSpin (p ++ rest) ≠ none := by
  intro p
  induction p with
  | nil =>
    intro rest hm
    cases rest with
    | nil => exact absurd rfl hm
    | cons c t =>
      unfold findSpin
      cases hmc : matchAt (c :: t) with
      | none => exact absurd hmc hm
      | some pr => simp [hmc]
  | cons a t ih =>
    intro rest hm
    show findSpin (a :: (t ++ rest)) ≠ none
    unfold findSpin
    cases hmc : matchAt (a :: (t ++ rest)) with
    | some pr => simp
    | none =>
      cases hfs : findSpin (t ++ rest) with
      | none => exact absurd hfs (ih rest hm)
      | some pr => simp

/-- Soundness of the leftmost-match scan. -/
theorem findSpin_sound :
    ∀ (cs p w s : List Char), findSpin cs = some (p, w, s) →
      cs = p ++ lbrace :: (w ++ rbrace :: s) ∧ w ≠ [] ∧
        ∀ c ∈ w, isBrace c = false := by
  intro cs
  induction cs with
  | nil => intro p w s h; cases h
  | cons c t ih =>
    intro p w s h
    unfold findSpin at h
    cases hm : matchAt (c :: t) with
    | some pr =>
      rw [hm] at h
      injection h with h'
      obtain ⟨hp, hrest⟩ := Prod.mk.inj h'
      obtain ⟨hw, hs⟩ := Prod.mk.inj hrest
      obtain ⟨hcs, hne, hnb⟩ := matchAt_sound (c :: t) pr.1 pr.2 (by rw [hm])
      rw [← hp, ← hw, ← hs]
      exact ⟨by simpa using hcs, hne, hnb⟩
    | none =>
      rw [hm] at h
      cases hfs : findSpin t with
      | none => rw [hfs] at h; cases h
      | some pr =>
        obtain ⟨p', w', s'⟩ := pr
        rw [hfs] at h
        injection h with h'
        obtain ⟨hp, hrest⟩ := Prod.mk.inj h'
        obtain ⟨hw, hs⟩ := Prod.mk.inj hrest
        obtain ⟨hcs, hne, hnb⟩ := ih p' w' s' hfs
        rw [← hp, ← hw, ← hs]
        exact ⟨by rw [hcs]; rfl, hne, hnb⟩

end Spintax

namespace Spintax

open Util

/-- Splitting on pipes never yields the empty list of pieces. -/
theorem splitBar_ne_nil : ∀ (w : List Char), splitBar w ≠ [] := by
  intro w
  induction w with
  | nil => simp [splitBar]
  | cons c t ih =>
    unfold splitBar
    by_cases hc : c = '|'
    · simp [hc]
    · simp only [hc, if_false, ite_false]
      cases hs : splitBar t with
      | nil => exact absurd hs ih
      | cons p ps => simp

/-- Characters of a split piece come from the split text and are not pipes. -/
theorem mem_of_mem_splitBar :
    ∀ (w piece : List Char), piece ∈ splitBar w →
      ∀ c ∈ piece, c ∈ w ∧ c ≠ '|' := by
  intro w
  induction w with
  | nil =>
    intro piece hp c hc
    simp [splitBar] at hp
    rw [hp] at hc
    cases hc
  | cons a t ih =>
    intro piece hp c hc
    unfold splitBar at hp
    by_cases ha : a = '|'
    · simp only [ha, if_pos rfl] at hp
      rcases List.mem_cons.mp hp with h' | h'
      · rw [h'] at hc; cases hc
      · have := ih piece h' c hc
        exact ⟨List.mem_cons_of_mem a this.1, this.2⟩
    · simp only [ha, if_false, ite_false] at hp
      cases hs : splitBar t with
      | nil => exact absurd hs (splitBar_ne_nil t)
      | cons p ps =>
        rw [hs] at hp
        rcases List.mem_cons.mp hp with h' | h'
        · rw [h'] at hc
          rcases List.mem_cons.mp hc with h'' | h''
          · rw [h'']
            exact ⟨List.mem_cons_self a t, ha⟩
          · have hpmem : p ∈ splitBar t := by rw [hs]; exact List.mem_cons_self p ps
            have := ih p hpmem c h''
            exact ⟨List.mem_cons_of_mem a this.1, this.2⟩
        · have hpmem : piece ∈ splitBar t := by
            rw [hs]; exact List.mem_cons_of_mem p h'
          have := ih piece hpmem c hc
          exact ⟨List.mem_cons_of_mem a this.1, this.2⟩

/-- Swapping the head of a chain for one with the same pair behaviour. -/
theorem chain'_head_swap (x y : Char) (l : List Char)
    (hxy : ∀ z, badPair x z = badPair y z)
    (h : List.Chain' (fun a b => badPair a b = false) (x :: l)) :
    List.Chain' (fun a b => badPair a b = false) (y :: l) := by
  cases l with
  | nil => simp
  | cons z zs =>
    rw [List.chain'_cons] at h ⊢
    exact ⟨by rw [← hxy]; exact h.1, h.2⟩

/-- Under the adjacent-pair condition on the surrounding group, every
alternative of a brace-free group body is nonempty. -/
theorem splitBar_nonempty_aux :
    ∀ (n : Nat) (w : List Char), w.length ≤ n →
      (∀ c ∈ w, isBrace c = false) →
      List.Chain' (fun a b => badPair a b = false)
        (lbrace :: (w ++ [rbrace])) →
      ∀ piece ∈ splitBar w, piece ≠ [] := by
  intro n
  induction n with
  | zero =>
    intro w hl _ hch piece _
    have hw : w = [] := List.length_eq_zero.mp (Nat.le_zero.mp hl)
    rw [hw] at hch
    simp only [List.nil_append] at hch
    have := (List.chain'_cons.mp hch).1
    exact absurd this (by simp [badPair])
  | succ n ih =>
    intro w hl hnb hch piece hp
    cases w with
    | nil =>
      simp only [List.nil_append] at hch
      have := (List.chain'_cons.mp hch).1
      exact absurd this (by simp [badPair])
    | cons a t =>
      have hch' : List.Chain' (fun a b => badPair a b = false)
          (lbrace :: a :: (t ++ [rbrace])) := by
        simpa using hch
      have hla := (List.chain'_cons.mp hch').1
      have hch2 := (List.chain'_cons.mp hch').2
      have ha1 : a ≠ '|' := by
        intro hh
        rw [hh] at hla
        simp [badPair] at hla
      have hanb := hnb a (List.mem_cons_self a t)
      cases t with
      | nil =>
        have hsb : splitBar [a] = [[a]] := by simp [splitBar, ha1]
        rw [hsb] at hp
        simp only [List.mem_singleton] at hp
        rw [hp]
        simp
      | cons b t' =>
        cases hsb : splitBar (b :: t') with
        | nil => exact absurd hsb (splitBar_ne_nil _)
        | cons p ps =>
          have hw : splitBar (a :: b :: t') = (a :: p) :: ps := by
            unfold splitBar
            simp only [ha1, if_false, ite_false]
            rw [hsb]
          rw [hw] at hp
          rcases List.mem_cons.mp hp with h' | hps
          · rw [h']; simp
          · have hbnb := hnb b (List.mem_cons_of_mem a (List.mem_cons_self b t'))
            have htnb : ∀ c ∈ b :: t', isBrace c = false := fun c hc =>
              hnb c (List.mem_cons_of_mem a hc)
            by_cases hb : b = '|'
            · -- piece boundary: pieces of the remainder after the pipe
              rw [hb] at hsb
              have hsplit' : splitBar ('|' :: t') = [] :: splitBar t' := by
                simp [splitBar]
              rw [hsplit'] at hsb
              have hps' : ps = splitBar t' := ((List.cons.inj hsb).2).symm
              rw [hps'] at hps
              -- chain for t' headed by a brace-like pipe
              have hch3 : List.Chain' (fun a b => badPair a b = false)
                  ('|' :: (t' ++ [rbrace])) := by
                have := (List.chain'_cons.mp hch2).2
                simpa [hb] using this
              have hch4 : List.Chain' (fun a b => badPair a b = false)
                  (lbrace :: (t' ++ [rbrace])) :=
                chain'_head_swap '|' lbrace (t' ++ [rbrace])
                  (fun z => by simp [badPair]) hch3
              exact ih t'
                (by simp only [List.length_cons] at hl; omega)
                (fun c hc => hnb c (List.mem_cons_of_mem a
                  (List.mem_cons_of_mem b hc)))
                hch4 piece hps
            · -- no boundary: pieces of the tail starting at b
              have hch3 : List.Chain' (fun a b => badPair a b = false)
                  (b :: (t' ++ [rbrace])) := (List.chain'_cons.mp hch2).2
              have hlb : badPair lbrace b = false := by
                have : b ≠ rbrace := by
                  intro hh
                  rw [hh] at hbnb
                  simp [isBrace] at hbnb
                simp [badPair, hb, this]
              have hch4 : List.Chain' (fun a b => badPair a b = false)
                  (lbrace :: ((b :: t') ++ [rbrace])) := by
                rw [List.cons_append, List.chain'_cons]
                exact ⟨hlb, hch3⟩
              have hmem : piece ∈ splitBar (b :: t') := by
                rw [hsb]; exact List.mem_cons_of_mem p hps
              exact ih (b :: t')
                (by simp only [List.length_cons] at hl ⊢; omega)
                htnb hch4 piece hmem

end Spintax

namespace Spintax

open Util

/-- `goodPairs` is the chain of pairwise non-badness. -/
theorem goodPairs_iff_chain (cs : List Char) :
    goodPairs cs = true ↔
      List.Chain' (fun a b => badPair a b = false) cs := by
  induction cs with
  | nil => simp [goodPairs]
  | cons a t ih =>
    cases t with
    | nil => simp [goodPairs]
    | cons b t' =>
      rw [List.chain'_cons, ← ih]
      unfold goodPairs
      simp
      intro _
      cases t' <;> rfl

/-- A text of plain characters (no brace, no pipe) is always pair-clean. -/
theorem chain'_of_nonspecial (l : List Char)
    (h : ∀ c ∈ l, c ≠ lbrace ∧ c ≠ '|') :
    List.Chain' (fun a b => badPair a b = false) l := by
  induction l with
  | nil => simp
  | cons a t ih =>
    cases t with
    | nil => simp
    | cons b t' =>
      rw [List.chain'_cons]
      constructor
      · have := h a (List.mem_cons_self a (b :: t'))
        simp [badPair, this.1, this.2]
      · exact ih (fun c hc => h c (List.mem_cons_of_mem a hc))

/-- Substituting a brace- and pipe-free nonempty option for an innermost
group preserves pair-cleanliness. -/
theorem goodPairs_preserved (p w s opt : List Char)
    (hch : goodPairs (p ++ lbrace :: (w ++ rbrace :: s)) = true)
    (hopt : ∀ c ∈ opt, c ≠ lbrace ∧ c ≠ '|' ∧ c ≠ rbrace)
    (hne : opt ≠ []) :
    goodPairs (p ++ opt ++ s) = true := by
  rw [goodPairs_iff_chain] at hch ⊢
  rw [List.chain'_append] at hch
  obtain ⟨hp, hu, _⟩ := hch
  have hu' : List.Chain' (fun a b => badPair a b = false)
      ((lbrace :: (w ++ [rbrace])) ++ s) := by
    have he : (lbrace :: (w ++ [rbrace])) ++ s =
        lbrace :: (w ++ rbrace :: s) := by simp
    rw [he]
    exact hu
  rw [List.chain'_append] at hu'
  have hs : List.Chain' (fun a b => badPair a b = false) s := hu'.2.1
  have hoptchain : List.Chain' (fun a b => badPair a b = false) opt :=
    chain'_of_nonspecial opt (fun c hc => ⟨(hopt c hc).1, (hopt c hc).2.1⟩)
  rw [List.append_assoc, List.chain'_append]
  refine ⟨hp, ?_, ?_⟩
  · rw [List.chain'_append]
    refine ⟨hoptchain, hs, ?_⟩
    intro x hx y _
    obtain ⟨hxn, hxl⟩ := List.mem_getLast?_eq_getLast hx
    have hxm : x ∈ opt := by rw [hxl]; exact List.getLast_mem hxn
    have := hopt x hxm
    simp [badPair, this.1, this.2.1]
  · intro x _ y hy
    rw [List.head?_append_of_ne_nil opt hne] at hy
    have hym : y ∈ opt := List.mem_of_mem_head? hy
    have := hopt y hym
    simp [badPair, this.2.1, this.2.2]

/-- Substituting a brace-free option for an innermost group keeps the depth
scan closed. -/
theorem scan_preserved (p w s opt : List Char)
    (hw : ∀ c ∈ w, isBrace c = false)
    (hopt : ∀ c ∈ opt, isBrace c = false)
    (h : scanDepth 0 (p ++ lbrace :: (w ++ rbrace :: s)) = some 0) :
    scanDepth 0 (p ++ opt ++ s) = some 0 := by
  rw [scanDepth_append] at h
  cases hsp : scanDepth 0 p with
  | none => rw [hsp] at h; cases h
  | some d =>
    rw [hsp] at h
    simp only [Option.some_bind] at h
    have h1 : scanDepth d (lbrace :: (w ++ rbrace :: s)) =
        scanDepth (d + 1) (w ++ rbrace :: s) := by
      simp [scanDepth]
    rw [h1, scanDepth_append, scanDepth_nonbrace w hw (d + 1)] at h
    simp only [Option.some_bind] at h
    have h2 : scanDepth (d + 1) (rbrace :: s) = scanDepth d s := by
      simp [scanDepth, show ¬ rbrace = lbrace from by decide]
    rw [h2] at h
    rw [List.append_assoc, scanDepth_append, hsp]
    simp only [Option.some_bind]
    rw [scanDepth_append, scanDepth_nonbrace opt hopt d]
    simpa using h

/-- Substituting a brace-free option for an innermost group removes exactly
one opening brace. -/
theorem count_step (p w s opt : List Char)
    (hw : ∀ c ∈ w, isBrace c = false)
    (hopt : ∀ c ∈ opt, isBrace c = false) :
    (p ++ opt ++ s).count lbrace + 1 =
      (p ++ lbrace :: (w ++ rbrace :: s)).count lbrace := by
  have hwz : w.count lbrace = 0 := by
    rw [List.count_eq_zero]
    intro hm
    have := hw lbrace hm
    simp [isBrace] at this
  have hoz : opt.count lbrace = 0 := by
    rw [List.count_eq_zero]
    intro hm
    have := hopt lbrace hm
    simp [isBrace] at this
  simp [List.count_append, List.count_cons, hwz, hoz,
    show (rbrace == lbrace) = false from by decide,
    show (lbrace == lbrace) = true from by decide]
  omega

/-- Main invariant argument: if the braces of the text are properly matched
(`scanDepth` closes), no adjacent pair creates an empty alternative, and the
remaining fuel covers the number of opening braces, then the spin loop ends
with a brace-free text. -/
theorem spinAux_no_braces (ch : Nat → Nat) :
    ∀ (fuel i : Nat) (cs : List Char),
      scanDepth 0 cs = some 0 → goodPairs cs = true → cs.count lbrace ≤ fuel →
      (spinAux ch fuel i cs).count lbrace = 0 ∧
        (spinAux ch fuel i cs).count rbrace = 0 := by
  intro fuel
  induction fuel with
  | zero =>
    intro i cs hscan _ hcount
    have h0 : cs.count lbrace = 0 := Nat.le_zero.mp hcount
    have hc := scanDepth_count cs 0 0 hscan
    constructor
    · simpa [spinAux] using h0
    · have : cs.count rbrace = 0 := by omega
      simpa [spinAux] using this
  | succ n ih =>
    intro i cs hscan hch hcount
    cases hf : findSpin cs with
    | none =>
      have hrw : spinAux ch (n + 1) i cs = cs := by
        simp [spinAux, spinStep, hf]
      rw [hrw]
      have h0 : cs.count lbrace = 0 := by
        by_contra hne
        have hmem : lbrace ∈ cs :=
          List.count_pos_iff.mp (Nat.pos_of_ne_zero hne)
        obtain ⟨p, sfx, hcs, hnots⟩ := exists_last_mem cs hmem
        have hscan' : scanDepth 0 (p ++ lbrace :: sfx) = some 0 := by
          rw [← hcs]; exact hscan
        rw [scanDepth_append] at hscan'
        cases hsp : scanDepth 0 p with
        | none => rw [hsp] at hscan'; cases hscan'
        | some d =>
          rw [hsp] at hscan'
          simp only [Option.some_bind] at hscan'
          have h1 : scanDepth d (lbrace :: sfx) =
              scanDepth (d + 1) sfx := by simp [scanDepth]
          rw [h1] at hscan'
          have hrb : rbrace ∈ sfx :=
            rbrace_mem_of_scan sfx (d + 1) hscan' (Nat.succ_pos d)
          obtain ⟨wseg, s', hsfx, hnotw⟩ := exists_first_mem sfx hrb
          have hwnb : ∀ c ∈ wseg, isBrace c = false := by
            intro c hc
            have hcl : c ≠ lbrace := by
              intro hh
              rw [hh] at hc
              exact hnots (by rw [hsfx]; exact List.mem_append_left _ hc)
            have hcr : c ≠ rbrace := by
              intro hh
              rw [hh] at hc
              exact hnotw hc
            simp [isBrace, hcl, hcr]
          have hwne : wseg ≠ [] := by
            intro hweq
            have hchd : goodPairs (p ++ lbrace :: (wseg ++ rbrace :: s')) =
                true := by
              rw [← hsfx, ← hcs]; exact hch
            rw [hweq, goodPairs_iff_chain] at hchd
            rw [List.chain'_append] at hchd
            have := hchd.2.1
            simp only [List.nil_append] at this
            have hbad := (List.chain'_cons.mp this).1
            exact absurd hbad (by simp [badPair])
          have hne2 : findSpin cs ≠ none := by
            have hcs2 : cs = p ++ (lbrace :: (wseg ++ rbrace :: s')) := by
              rw [hcs, hsfx]
            rw [hcs2]
            apply findSpin_ne_none_of_matchAt
            rw [matchAt_complete wseg s' hwne hwnb]
            simp
          exact hne2 hf
      have hc := scanDepth_count cs 0 0 hscan
      constructor
      · exact h0
      · omega
    | some triple =>
      obtain ⟨p, w, sfx⟩ := triple
      obtain ⟨hcs, hwne, hwnb⟩ := findSpin_sound cs p w sfx hf
      have hopts_ne : splitBar w ≠ [] := splitBar_ne_nil w
      have hlen : 0 < (splitBar w).length := List.length_pos.mpr hopts_ne
      have hidx : ch i % (splitBar w).length < (splitBar w).length :=
        Nat.mod_lt _ hlen
      have hopt_mem : (splitBar w).getD (ch i % (splitBar w).length) [] ∈
          splitBar w := by
        rw [List.getD_eq_getElem _ _ hidx]
        exact List.getElem_mem hidx
      set opt := (splitBar w).getD (ch i % (splitBar w).length) [] with hopt_def
      have hopt_prop : ∀ c ∈ opt, c ∈ w ∧ c ≠ '|' :=
        fun c hc => mem_of_mem_splitBar w opt hopt_mem c hc
      have hopt_nb : ∀ c ∈ opt, isBrace c = false :=
        fun c hc => hwnb c (hopt_prop c hc).1
      have hchd : goodPairs (p ++ lbrace :: (w ++ rbrace :: sfx)) = true := by
        rw [← hcs]; exact hch
      have hseg : List.Chain' (fun a b => badPair a b = false)
          (lbrace :: (w ++ [rbrace])) := by
        have hchc := (goodPairs_iff_chain _).mp hchd
        have he : p ++ lbrace :: (w ++ rbrace :: sfx) =
            p ++ ((lbrace :: (w ++ [rbrace])) ++ sfx) := by simp
        rw [he, List.chain'_append] at hchc
        have := hchc.2.1
        rw [List.chain'_append] at this
        exact this.1
      have hopt_ne : opt ≠ [] :=
        splitBar_nonempty_aux w.length w le_rfl hwnb hseg opt hopt_mem
      have hstep : spinAux ch (n + 1) i cs =
          spinAux ch n (i + 1) (p ++ opt ++ sfx) :=
        spinAux_succ_of_findSpin hf
      rw [hstep]
      have hscan' : scanDepth 0 (p ++ lbrace :: (w ++ rbrace :: sfx)) =
          some 0 := by rw [← hcs]; exact hscan
      have hcount' : cs.count lbrace ≤ n + 1 := hcount
      apply ih (i + 1)
      · exact scan_preserved p w sfx opt hwnb hopt_nb hscan'
      · refine goodPairs_preserved p w sfx opt hchd ?_ hopt_ne
        intro c hc
        have h1 := hopt_prop c hc
        have h2 := hopt_nb c hc
        refine ⟨?_, h1.2, ?_⟩
        · intro hh; rw [hh] at h2; simp [isBrace] at h2
        · intro hh; rw [hh] at h2; simp [isBrace] at h2
      · have := count_step p w sfx opt hwnb hopt_nb
        rw [← hcs] at this
        omega

end Spintax

/-- C3: FALSE as stated.  `validate_template` only compares the counts of
opening and closing braces, so the template consisting of a closing brace
followed by an opening brace passes validation, yet `spin` finds no match in
it and returns it unchanged — with both literal braces in the output. -/
theorem C3_counterexample :
    Spintax.validate_valid "\x7d\x7b".data = true ∧
      Spintax.spin (fun _ => 0) "\x7d\x7b".data = "\x7d\x7b".data ∧
      Util.lbrace ∈ Spintax.spin (fun _ => 0) "\x7d\x7b".data ∧
      Util.rbrace ∈ Spintax.spin (fun _ => 0) "\x7d\x7b".data := by
  decide

/-- C3 (amended): `spin` always terminates (its loop is bounded at 10
iterations).  Its output is guaranteed brace-free for every template whose
braces are properly matched (the depth scan `dyck` closes, which is strictly
stronger than the equal-counts check of `validate_template`), which contains
none of the adjacent pairs `(open,pipe)`, `(pipe,pipe)`, `(pipe,close)`,
`(open,close)` (no empty alternative anywhere, strictly stronger than the
innermost-matches check of `validate_template`), and which has at most 10
opening braces (the iteration bound): for every random branch choice the
output then contains no literal brace.  Validation alone does not guarantee
this (see the counterexample). -/
theorem C3_spin_eliminates_braces (cs : List Char) (choices : Nat → Nat)
    (h1 : Spintax.dyck cs = true) (h2 : Spintax.goodPairs cs = true)
    (h3 : cs.count Util.lbrace ≤ 10) :
    Util.lbrace ∉ Spintax.spin choices cs ∧
      Util.rbrace ∉ Spintax.spin choices cs := by
  have hscan : Spintax.scanDepth 0 cs = some 0 := by
    unfold Spintax.dyck at h1
    exact eq_of_beq h1
  have h := Spintax.spinAux_no_braces choices 10 0 cs hscan h2 h3
  exact ⟨List.count_eq_zero.mp h.1, List.count_eq_zero.mp h.2⟩

/-- C3 witness: a nested two-group template spins to a brace-free text. -/
theorem C3_spin_eliminates_braces_witness :
    Util.lbrace ∉ Spintax.spin (fun _ => 1)
        "\x7bHi|Hey \x7bthere|friend\x7d\x7d".data ∧
      Util.rbrace ∉ Spintax.spin (fun _ => 1)
        "\x7bHi|Hey \x7bthere|friend\x7d\x7d".data :=
  C3_spin_eliminates_braces "\x7bHi|Hey \x7bthere|friend\x7d\x7d".data
    (fun _ => 1) (by decide) (by decide) (by decide)
